import Mathlib

/-!
# Verification of the netsim-analyzer routing control plane

Shallow embedding of the BGP path-vector engine (`src/protocols/bgp.py`)
and the OSPF link-state engine (`src/protocols/ospf.py`), together with
the OSPF branch of `NetworkSimulator.connect_routers`
(`src/network_simulator.py`).

Modelling conventions:
* Python `dict`s preserve insertion order; they are embedded as
  association lists where assignment updates an existing key in place and
  appends a fresh key at the end (`alSet`).
* Python `set`s are used only for membership (`lsa_seen`); they are
  embedded as lists with prepend-if-absent insertion.
* A network is the list of all router objects, keyed by `router_id`;
  peer / neighbour object references become `router_id` keys resolved in
  the network list.  The simulator stores routers in `dict`s keyed by id,
  so ids are unique.
* The synchronous recursive call cascades (`advertise_route` ↔
  `receive_route`, `receive_lsa` ↔ `_flood_lsa`) are embedded with an
  explicit fuel parameter; `none` means the fuel ran out (or, for OSPF,
  that the uncaught `networkx` `NodeNotFound` exception escaped, see
  `runSpf`).  Fuel is consumed at every protocol call, so any terminating
  Python cascade is reproduced by every sufficiently large fuel.
* OSPF link costs are Python floats in the source; they are embedded as
  rationals.  Every cost arithmetic performed in the verified claims
  (sums and comparisons of small dyadic values such as 1.0, 2.0, 3.0) is
  exact in IEEE double precision, so the rational model is faithful there.
* The unused `LSA.timestamp` field (a wall-clock `datetime`, never read)
  is omitted.
-/

/-- Association-list update with Python `dict` assignment semantics:
an existing key keeps its position, a new key is appended at the end. -/
def alSet {β : Type} (l : List (String × β)) (k : String) (v : β) :
    List (String × β) :=
  match l with
  | [] => [(k, v)]
  | (k', v') :: rest => if k' = k then (k, v) :: rest else (k', v') :: alSet rest k v

/-- Association-list lookup (Python `dict.get` / `in`). -/
def alGet {β : Type} (l : List (String × β)) (k : String) : Option β :=
  match l with
  | [] => none
  | (k', v) :: rest => if k' = k then some v else alGet rest k

/-- Insertion into a key-presence list (a `dict` whose values are object
references, of which only the key set and order matter). -/
def idSet (l : List String) (k : String) : List String :=
  if k ∈ l then l else l ++ [k]

/-- Run an effectful step over a list sequentially, stopping at the first
failure.  This is the shape of every `for` loop in the source that calls
into other routers. -/
def runSeq {σ α : Type} (f : σ → α → Option σ) : σ → List α → Option σ
  | s, [] => some s
  | s, a :: rest =>
    match f s a with
    | none => none
    | some s' => runSeq f s' rest

/-! ## BGP data model (`src/protocols/bgp.py`) -/

/-- `BGPRoute` dataclass.  The source field `prefix` is a Lean keyword and
is embedded as `pfx`. -/
structure BGPRoute where
  pfx : String
  as_path : List Int
  next_hop : String
  local_pref : Int := 100
  med : Int := 0
deriving DecidableEq, Repr

/-- The mutable state of one `BGPRouter` object.  `peers` holds the keys
of the `self.peers` dict (the referenced objects live in the network
list). -/
structure BGPRouterState where
  as_number : Int
  router_id : String
  routing_table : List (String × BGPRoute)
  peers : List String
deriving DecidableEq, Repr

/-- A BGP network: every `BGPRouter` object in creation order. -/
abbrev BGPNet := List BGPRouterState

/-- `BGPRouter.__init__`. -/
def mkBGPRouter (asn : Int) (rid : String) : BGPRouterState :=
  ⟨asn, rid, [], []⟩

/-- Resolve a router object from its id. -/
def findRouter (net : BGPNet) (rid : String) : Option BGPRouterState :=
  net.find? (fun r => r.router_id = rid)

/-- Write one router's routing-table entry (`self.routing_table[prefix] = route`). -/
def setTable (net : BGPNet) (rid pfx : String) (route : BGPRoute) : BGPNet :=
  net.map (fun r =>
    if r.router_id = rid then
      { r with routing_table := alSet r.routing_table pfx route }
    else r)

/-- `BGPRouter.add_peer` (one-sided, exactly as in the source). -/
def addPeerOp (net : BGPNet) (rid prid : String) : BGPNet :=
  net.map (fun r =>
    if r.router_id = rid then { r with peers := idSet r.peers prid } else r)

/-- The acceptance test of `BGPRouter.receive_route`:
`prefix not in self.routing_table or len(route.as_path) <
len(self.routing_table[prefix].as_path)`. -/
def acceptRoute (tbl : List (String × BGPRoute)) (pfx : String)
    (route : BGPRoute) : Bool :=
  match alGet tbl pfx with
  | none => true
  | some e => route.as_path.length < e.as_path.length

/-- A protocol event: an `advertise_route` or `receive_route` call on the
router named by the first field. -/
inductive BGPCall : Type where
  | adv (rid pfx nh : String) (pathOpt : Option (List Int))
  | recv (rid pfx : String) (route : BGPRoute)
deriving DecidableEq, Repr

/-- One synchronous BGP call cascade, embedded with fuel.  Faithful
shallow embedding of `BGPRouter.advertise_route` and
`BGPRouter.receive_route`:

* `advertise_route` builds the path (`[self.as_number]` when no path is
  given, otherwise `[self.as_number] + as_path`), unconditionally
  overwrites `routing_table[prefix]` and then delivers the route to every
  peer in turn;
* `receive_route` silently drops a route whose path contains the own AS
  number, installs an acceptable route and re-advertises it (which
  overwrites the just-installed entry with the own-AS-prepended copy),
  and silently ignores everything else.

`none` means the fuel bound was hit before the cascade finished. -/
def bgpRun : Nat → BGPNet → BGPCall → Option BGPNet
  | 0, _, _ => none
  | fuel + 1, net, BGPCall.recv rid pfx route =>
    match findRouter net rid with
    | none => some net
    | some r =>
      if r.as_number ∈ route.as_path then some net
      else if acceptRoute r.routing_table pfx route then
        bgpRun fuel (setTable net rid pfx route)
          (BGPCall.adv rid pfx route.next_hop (some route.as_path))
      else some net
  | fuel + 1, net, BGPCall.adv rid pfx nh pathOpt =>
    match findRouter net rid with
    | none => some net
    | some r =>
      let path : List Int :=
        match pathOpt with
        | none => [r.as_number]
        | some p => r.as_number :: p
      let route : BGPRoute := ⟨pfx, path, nh, 100, 0⟩
      runSeq (fun n pid => bgpRun fuel n (BGPCall.recv pid pfx route))
        (setTable net rid pfx route) r.peers

/-- States of a BGP network reachable from router creation by any
sequence of `add_peer`, `advertise_route` and `receive_route` calls.
Router ids are pairwise distinct because the simulator stores routers in
a dict keyed by id. -/
inductive BGPReachable : BGPNet → Prop where
  | init (l : List (Int × String)) (hids : (l.map (·.2)).Nodup) :
      BGPReachable (l.map (fun p => mkBGPRouter p.1 p.2))
  | addPeer {net : BGPNet} (rid prid : String)
      (hp : (findRouter net prid).isSome) (h : BGPReachable net) :
      BGPReachable (addPeerOp net rid prid)
  | step {net net' : BGPNet} (fuel : Nat) (call : BGPCall)
      (h : BGPReachable net) (hrun : bgpRun fuel net call = some net') :
      BGPReachable net'

/-- The `as_path` of the routing-table entry a router holds for a prefix. -/
def bgpEntryPath (net : BGPNet) (rid pfx : String) : Option (List Int) :=
  match findRouter net rid with
  | none => none
  | some r => (alGet r.routing_table pfx).map (·.as_path)

/-- The invariant claimed by the spec: no stored route's AS-path contains
the owning router's AS number. -/
def bgpNoOwnAs (net : BGPNet) : Prop :=
  ∀ r ∈ net, ∀ e ∈ r.routing_table, r.as_number ∉ e.2.as_path

instance (net : BGPNet) : Decidable (bgpNoOwnAs net) := by
  unfold bgpNoOwnAs; infer_instance

/-- The invariant the code actually maintains: every stored route's
AS-path starts with the owning router's AS number. -/
def bgpOwnAsHead (net : BGPNet) : Prop :=
  ∀ r ∈ net, ∀ e ∈ r.routing_table, e.2.as_path.head? = some r.as_number

instance (net : BGPNet) : Decidable (bgpOwnAsHead net) := by
  unfold bgpOwnAsHead; infer_instance

/-- Number of routers whose AS number does not yet occur in a path: the
termination measure of the propagation cascade. -/
def asOutside (net : BGPNet) (p : List Int) : Nat :=
  net.countP (fun r => decide (r.as_number ∉ p))

/-! ## OSPF data model (`src/protocols/ospf.py`) -/

/-- `LSA` dataclass (the never-read `timestamp` field is omitted,
costs are rationals, see the header). -/
structure LSA where
  router_id : String
  sequence_number : Int
  age : Int
  neighbors : List (String × ℚ)
  area_id : String
deriving DecidableEq, Repr

/-- The mutable state of one `OSPFRouter` object. -/
structure OSPFRouterState where
  router_id : String
  area_id : String
  lsdb : List (String × LSA)
  neighbors : List (String × ℚ)
  sequence_number : Int
  routing_table : List (String × (String × ℚ))
  lsa_seen : List String
  neighbor_routers : List String
deriving DecidableEq, Repr

/-- An OSPF network: every `OSPFRouter` object in creation order. -/
abbrev ONet := List OSPFRouterState

/-- `OSPFRouter.__init__`. -/
def mkOSPFRouter (rid : String) (area : String := "0") : OSPFRouterState :=
  ⟨rid, area, [], [], 0, [], [], []⟩

/-- Resolve an OSPF router object from its id. -/
def findORouter (net : ONet) (rid : String) : Option OSPFRouterState :=
  net.find? (fun r => r.router_id = rid)

/-- Update one OSPF router's state in the network. -/
def updO (net : ONet) (rid : String) (f : OSPFRouterState → OSPFRouterState) :
    ONet :=
  net.map (fun r => if r.router_id = rid then f r else r)

/-- The dedup key of `receive_lsa`:
`f"{lsa.router_id}_{lsa.sequence_number}"`. -/
def lsaId (lsa : LSA) : String :=
  lsa.router_id ++ "_" ++ toString lsa.sequence_number

/-- The freshness test of `receive_lsa` against the stored LSA (absent
counts as oldest possible): strictly larger sequence number, or equal
sequence number with strictly smaller age. -/
def lsaNewer (lsa : LSA) (existing : Option LSA) : Bool :=
  match existing with
  | none => true
  | some e =>
    decide (e.sequence_number < lsa.sequence_number ∨
      (lsa.sequence_number = e.sequence_number ∧ lsa.age < e.age))

/-- `OSPFRouter._generate_lsa` on one router object: bump the sequence
counter, snapshot the neighbour map into a fresh LSA, store it in the own
LSDB slot and return it. -/
def genLsaR (r : OSPFRouterState) : OSPFRouterState × LSA :=
  let seq := r.sequence_number + 1
  let lsa : LSA := ⟨r.router_id, seq, 0, r.neighbors, r.area_id⟩
  ({ r with sequence_number := seq, lsdb := alSet r.lsdb r.router_id lsa }, lsa)

/-- `_generate_lsa` lifted to the network. -/
def generateLsaOp (net : ONet) (rid : String) : ONet × Option LSA :=
  match findORouter net rid with
  | none => (net, none)
  | some r => (updO net rid (fun x => (genLsaR x).1), some (genLsaR r).2)

/-- `OSPFRouter.add_neighbor`: record the cost, optionally record the
live router reference, then regenerate the own LSA (without flooding). -/
def addNeighborOp (net : ONet) (rid nbrId : String) (cost : ℚ)
    (withRef : Bool) : ONet :=
  let net1 := updO net rid (fun r =>
    { r with
      neighbors := alSet r.neighbors nbrId cost,
      neighbor_routers :=
        if withRef then idSet r.neighbor_routers nbrId else r.neighbor_routers })
  (generateLsaOp net1 rid).1

/-- The undirected weighted graph built by `_run_spf`: `networkx`
`add_edge` updates the weight of an existing edge (in either endpoint
order) and appends a new edge otherwise. -/
def addEdge (g : List ((String × String) × ℚ)) (u v : String) (w : ℚ) :
    List ((String × String) × ℚ) :=
  match g with
  | [] => [((u, v), w)]
  | ((a, b), c) :: rest =>
    if (a = u ∧ b = v) ∨ (a = v ∧ b = u) then ((a, b), w) :: rest
    else ((a, b), c) :: addEdge rest u v w

/-- All links recorded across the LSDB, in iteration order of
`_run_spf`'s two nested loops. -/
def buildGraph (lsdb : List (String × LSA)) : List ((String × String) × ℚ) :=
  lsdb.foldl
    (fun g kv =>
      kv.2.neighbors.foldl (fun g2 nc => addEdge g2 kv.2.router_id nc.1 nc.2) g)
    []

/-- Nodes of the graph in `networkx` insertion order. -/
def graphNodes (g : List ((String × String) × ℚ)) : List String :=
  g.foldl (fun ns e => idSet (idSet ns e.1.1) e.1.2) []

/-- One relaxation of a directed use of an edge, carrying whole shortest
paths exactly as `networkx.single_source_dijkstra_path` does. -/
def relaxDir (d : List (String × (ℚ × List String))) (u v : String) (w : ℚ) :
    List (String × (ℚ × List String)) :=
  match alGet d u with
  | none => d
  | some (cu, pu) =>
    match alGet d v with
    | none => alSet d v (cu + w, pu ++ [v])
    | some (cv, _) => if cu + w < cv then alSet d v (cu + w, pu ++ [v]) else d

/-- Relax every edge of the (undirected) graph once in both directions. -/
def relaxAll (g : List ((String × String) × ℚ))
    (d : List (String × (ℚ × List String))) :
    List (String × (ℚ × List String)) :=
  g.foldl (fun d2 e => relaxDir (relaxDir d2 e.1.1 e.1.2 e.2) e.1.2 e.1.1 e.2) d

/-- Iterated relaxation; `graphNodes.length` rounds reach the Dijkstra
fixed point because shortest paths have fewer edges than nodes. -/
def spfIter : Nat → List ((String × String) × ℚ) →
    List (String × (ℚ × List String)) → List (String × (ℚ × List String))
  | 0, _, d => d
  | n + 1, g, d => spfIter n g (relaxAll g d)

/-- `OSPFRouter._run_spf`, modelling the external `networkx` calls
`single_source_dijkstra_path` / `single_source_dijkstra_path_length`
(single-source shortest paths over non-negatively weighted graphs, here
computed by iterated path relaxation — identical output whenever shortest
paths are unique, as in every verified claim).  Returns the fully rebuilt
routing table: for every reachable destination whose path has more than
one node, `(next_hop = path[1], cost)`.  `none` models the `NodeNotFound`
exception `networkx` raises when the source router does not occur in the
graph — the source only catches `NetworkXNoPath` (which these calls never
raise), so `NodeNotFound` escapes `receive_lsa`. -/
def runSpf (lsdb : List (String × LSA)) (src : String) :
    Option (List (String × (String × ℚ))) :=
  let g := buildGraph lsdb
  let ns := graphNodes g
  if src ∈ ns then
    let d := spfIter ns.length g [(src, (0, [src]))]
    some (d.foldl
      (fun tbl kv =>
        match kv.2.2 with
        | _ :: hop :: _ => alSet tbl kv.1 (hop, kv.2.1)
        | _ => tbl)
      [])
  else none

/-- A recursive OSPF protocol event: a `receive_lsa` or `_flood_lsa`
call on the router named by the first field. -/
inductive OCall : Type where
  | recvLsa (rid : String) (lsa : LSA)
  | flood (rid : String) (lsa : LSA)
deriving DecidableEq, Repr

/-- The LSA an OSPF event carries. -/
def callLsa : OCall → LSA
  | OCall.recvLsa _ lsa => lsa
  | OCall.flood _ lsa => lsa

/-- One synchronous OSPF call cascade, embedded with fuel.  Faithful
shallow embedding of `OSPFRouter.receive_lsa` and
`OSPFRouter._flood_lsa`:

* `receive_lsa` stops on an already-seen LSA id; otherwise it marks the
  id seen, installs a fresher LSA into the LSDB, floods it to every
  neighbour except the originator, and then recomputes the full routing
  table from the own LSDB (`_run_spf`);
* `_flood_lsa` forwards the LSA unchanged to every neighbour with a live
  reference whose id differs from the LSA's originator.

`none` means the fuel ran out or `_run_spf` raised (see `runSpf`). -/
def ospfRun : Nat → ONet → OCall → Option ONet
  | 0, _, _ => none
  | fuel + 1, net, OCall.recvLsa rid lsa =>
    match findORouter net rid with
    | none => some net
    | some r =>
      if lsaId lsa ∈ r.lsa_seen then some net
      else
        let net1 := updO net rid (fun x => { x with lsa_seen := lsaId lsa :: x.lsa_seen })
        if lsaNewer lsa (alGet r.lsdb lsa.router_id) then
          let net2 := updO net1 rid (fun x => { x with lsdb := alSet x.lsdb lsa.router_id lsa })
          match ospfRun fuel net2 (OCall.flood rid lsa) with
          | none => none
          | some net3 =>
            match findORouter net3 rid with
            | none => none
            | some r3 =>
              match runSpf r3.lsdb rid with
              | none => none
              | some tbl => some (updO net3 rid (fun x => { x with routing_table := tbl }))
        else some net1
  | fuel + 1, net, OCall.flood rid lsa =>
    match findORouter net rid with
    | none => some net
    | some r =>
      runSeq
        (fun n nbr =>
          if nbr = lsa.router_id then some n
          else ospfRun fuel n (OCall.recvLsa nbr lsa))
        net r.neighbor_routers

/-- `OSPFRouter.get_route`. -/
def getRoute (net : ONet) (rid dest : String) : Option (String × ℚ) :=
  match findORouter net rid with
  | none => none
  | some r => alGet r.routing_table dest

/-- The OSPF branch of `NetworkSimulator.connect_routers`: when both ids
are OSPF routers, add each other as neighbours (regenerating the local
LSAs), exchange the two existing LSDBs by delivering every stored LSA to
the other side, then generate one fresh LSA on each side and flood it.
The source iterates the live `lsdb.values()` views; they are embedded as
snapshots taken when each loop starts, which coincides with the live view
whenever the loop does not mutate the dict being iterated (as in every
verified claim — a mutating iteration would raise `RuntimeError` in
Python).  The topology-graph bookkeeping and the BGP branch are not part
of the OSPF state and are omitted. -/
def connectOspf (fuel : Nat) (net : ONet) (rid1 rid2 : String) (cost : ℚ) :
    Option ONet :=
  if (findORouter net rid1).isSome && (findORouter net rid2).isSome then
    let net1 := addNeighborOp net rid1 rid2 cost true
    let net2 := addNeighborOp net1 rid2 rid1 cost true
    let lsdb1 := match findORouter net2 rid1 with | none => [] | some r => r.lsdb
    match runSeq (fun n kv => ospfRun fuel n (OCall.recvLsa rid2 kv.2)) net2 lsdb1 with
    | none => none
    | some net3 =>
      let lsdb2 := match findORouter net3 rid2 with | none => [] | some r => r.lsdb
      match runSeq (fun n kv => ospfRun fuel n (OCall.recvLsa rid1 kv.2)) net3 lsdb2 with
      | none => none
      | some net4 =>
        let g1 := generateLsaOp net4 rid1
        let g2 := generateLsaOp g1.1 rid2
        match g1.2, g2.2 with
        | some l1, some l2 =>
          match ospfRun fuel g2.1 (OCall.flood rid1 l1) with
          | none => none
          | some net7 => ospfRun fuel net7 (OCall.flood rid2 l2)
        | _, _ => none
  else some net

/-- States of an OSPF network reachable from router creation by any
sequence of `add_neighbor`, `receive_lsa`, `_generate_lsa` and
`_flood_lsa` calls. -/
inductive OReachable : ONet → Prop where
  | init (l : List String) (hids : l.Nodup) :
      OReachable (l.map (fun rid => mkOSPFRouter rid))
  | addNeighbor {net : ONet} (rid nbrId : String) (cost : ℚ) (withRef : Bool)
      (h : OReachable net) : OReachable (addNeighborOp net rid nbrId cost withRef)
  | generate {net : ONet} (rid : String) (h : OReachable net) :
      OReachable (generateLsaOp net rid).1
  | step {net net' : ONet} (fuel : Nat) (call : OCall)
      (h : OReachable net) (hrun : ospfRun fuel net call = some net') :
      OReachable net'

/-- The spec's claimed OSPF invariant: the routing table is the exact
output of a full shortest-path computation over the current LSDB. -/
def spfInv (net : ONet) : Prop :=
  ∀ r ∈ net, runSpf r.lsdb r.router_id = some r.routing_table

instance (net : ONet) : Decidable (spfInv net) := by
  unfold spfInv; infer_instance

/-- The seen-id set of one router (empty if the router does not exist). -/
def seenOf (net : ONet) (rid : String) : List String :=
  match findORouter net rid with
  | none => []
  | some r => r.lsa_seen

/-- The LSDB entry a router holds for an originator. -/
def lsdbEntry (net : ONet) (rid orig : String) : Option LSA :=
  match findORouter net rid with
  | none => none
  | some r => alGet r.lsdb orig

/-- The call-cascade-immutable part of a BGP router: id, AS number and
peer set.  `bgpRun` only ever rewrites routing tables. -/
def bMask (r : BGPRouterState) : String × Int × List String :=
  (r.router_id, r.as_number, r.peers)

/-- The AS path `advertise_route` will build from its optional argument. -/
def builtPath (net : BGPNet) (rid : String) (pathOpt : Option (List Int)) :
    List Int :=
  match findRouter net rid with
  | none => []
  | some r =>
    match pathOpt with
    | none => [r.as_number]
    | some p => r.as_number :: p

/-- Fuel that provably suffices for a call cascade: each accepted route
prepends an AS that was outside the path, so `asOutside` strictly drops
along every chain of accepted re-advertisements. -/
def fuelNeed : BGPNet → BGPCall → Nat
  | net, BGPCall.recv _ _ route => 2 * asOutside net route.as_path + 1
  | net, BGPCall.adv rid _ _ pathOpt => 2 * asOutside net (builtPath net rid pathOpt) + 2

/-- Distinctness of router ids, guaranteed by the simulator's id-keyed
router dicts. -/
def bgpNodupIds (net : BGPNet) : Prop :=
  (net.map (·.router_id)).Nodup

/-- A call whose cascade can never touch the state of the router `rid`
with AS number `a`: the carried path already contains `a` (so `rid` drops
every delivery), and an advertisement is running on some other router. -/
def bgpCarries (rid : String) (a : Int) : BGPCall → Prop
  | BGPCall.recv _ _ route => a ∈ route.as_path
  | BGPCall.adv rid' _ _ pathOpt => rid' ≠ rid ∧ ∃ p, pathOpt = some p ∧ a ∈ p

/-! ## Association-list lemmas -/

theorem alGet_alSet_self {β : Type} (l : List (String × β)) (k : String) (v : β) :
    alGet (alSet l k v) k = some v := by
  induction l with
  | nil => simp [alSet, alGet]
  | cons hd tl ih =>
    obtain ⟨k', v'⟩ := hd
    by_cases h : k' = k
    · subst h; simp [alSet, alGet]
    · simp [alSet, alGet, h, ih]

theorem alGet_alSet_ne {β : Type} (l : List (String × β)) (k k' : String) (v : β)
    (h : k' ≠ k) : alGet (alSet l k v) k' = alGet l k' := by
  induction l with
  | nil => simp [alSet, alGet, Ne.symm h]
  | cons hd tl ih =>
    obtain ⟨k0, v0⟩ := hd
    by_cases h0 : k0 = k
    · subst h0; simp [alSet, alGet, Ne.symm h]
    · simp [alSet, alGet, h0, ih]

theorem alSet_alSet {β : Type} (l : List (String × β)) (k : String) (v w : β) :
    alSet (alSet l k v) k w = alSet l k w := by
  induction l with
  | nil => simp [alSet]
  | cons hd tl ih =>
    obtain ⟨k', v'⟩ := hd
    by_cases h : k' = k
    · subst h; simp [alSet]
    · simp [alSet, h, ih]

theorem mem_alSet {β : Type} {l : List (String × β)} {k : String} {v : β}
    {e : String × β} (h : e ∈ alSet l k v) : e = (k, v) ∨ e ∈ l := by
  induction l with
  | nil => simp [alSet] at h; exact Or.inl h
  | cons hd tl ih =>
    obtain ⟨k', v'⟩ := hd
    by_cases h0 : k' = k
    · rw [show alSet ((k', v') :: tl) k v = (k, v) :: tl by simp [alSet, h0]] at h
      rcases List.mem_cons.mp h with h1 | h1
      · exact Or.inl h1
      · exact Or.inr (List.mem_cons_of_mem _ h1)
    · rw [show alSet ((k', v') :: tl) k v = (k', v') :: alSet tl k v by
        simp [alSet, h0]] at h
      rcases List.mem_cons.mp h with h1 | h1
      · exact Or.inr (by simp [h1])
      · rcases ih h1 with h2 | h2
        · exact Or.inl h2
        · exact Or.inr (List.mem_cons_of_mem _ h2)

/-! ## runSeq lemmas -/

/-- An invariant preserved by every step of a `runSeq` loop holds at the
end. -/
theorem runSeq_inv {σ α : Type} (f : σ → α → Option σ) (Q : σ → Prop)
    (hstep : ∀ s a s', Q s → f s a = some s' → Q s') :
    ∀ (l : List α) (s s' : σ), Q s → runSeq f s l = some s' → Q s' := by
  intro l
  induction l with
  | nil => intro s s' hQ h; simp [runSeq] at h; exact h ▸ hQ
  | cons a rest ih =>
    intro s s' hQ h
    simp only [runSeq] at h
    cases hf : f s a with
    | none => rw [hf] at h; exact absurd h (by simp)
    | some s1 =>
      rw [hf] at h
      exact ih s1 s' (hstep s a s1 hQ hf) h

/-- A `runSeq` loop whose every step succeeds (under a step-preserved
invariant) succeeds. -/
theorem runSeq_isSome {σ α : Type} (f : σ → α → Option σ) (Q : σ → Prop)
    (hstep : ∀ s a, Q s → ∃ s', f s a = some s' ∧ Q s') :
    ∀ (l : List α) (s : σ), Q s → ∃ s', runSeq f s l = some s' ∧ Q s' := by
  intro l
  induction l with
  | nil => intro s hQ; exact ⟨s, by simp [runSeq], hQ⟩
  | cons a rest ih =>
    intro s hQ
    obtain ⟨s1, hf, hQ1⟩ := hstep s a hQ
    obtain ⟨s', hrest, hQ'⟩ := ih s1 hQ1
    exact ⟨s', by simp only [runSeq, hf]; exact hrest, hQ'⟩

/-! ## BGP structural lemmas -/

theorem findRouter_id {net : BGPNet} {rid : String} {r : BGPRouterState}
    (h : findRouter net rid = some r) : r.router_id = rid := by
  have := List.find?_some h
  simpa using this

theorem findRouter_mem {net : BGPNet} {rid : String} {r : BGPRouterState}
    (h : findRouter net rid = some r) : r ∈ net :=
  List.mem_of_find?_eq_some h

theorem findRouter_map (net : BGPNet) (f : BGPRouterState → BGPRouterState)
    (hf : ∀ r, (f r).router_id = r.router_id) (rid : String) :
    findRouter (net.map f) rid = (findRouter net rid).map f := by
  unfold findRouter
  have hcomp : ((fun r : BGPRouterState => decide (r.router_id = rid)) ∘ f) =
      (fun r : BGPRouterState => decide (r.router_id = rid)) := by
    funext r
    simp [Function.comp, hf r]
  rw [List.find?_map, hcomp]

theorem findRouter_setTable_self (net : BGPNet) (rid pfx : String) (rt : BGPRoute) :
    findRouter (setTable net rid pfx rt) rid =
      (findRouter net rid).map
        (fun r => { r with routing_table := alSet r.routing_table pfx rt }) := by
  unfold setTable
  rw [findRouter_map _ _ (fun r => by by_cases h : r.router_id = rid <;> simp [h])]
  cases hf : findRouter net rid with
  | none => rfl
  | some r => simp [findRouter_id hf]

theorem findRouter_setTable_ne (net : BGPNet) (rid rid' pfx : String)
    (rt : BGPRoute) (h : rid' ≠ rid) :
    findRouter (setTable net rid pfx rt) rid' = findRouter net rid' := by
  unfold setTable
  rw [findRouter_map _ _ (fun r => by by_cases hr : r.router_id = rid <;> simp [hr])]
  cases hf : findRouter net rid' with
  | none => rfl
  | some r => simp [findRouter_id hf, h]

theorem setTable_bMask (net : BGPNet) (rid pfx : String) (rt : BGPRoute) :
    (setTable net rid pfx rt).map bMask = net.map bMask := by
  unfold setTable
  rw [List.map_map]
  apply List.map_congr_left
  intro r _
  by_cases h : r.router_id = rid <;> simp [bMask, h]

theorem findRouter_congr {net net' : BGPNet}
    (h : net'.map bMask = net.map bMask) (rid : String) :
    (findRouter net' rid).map bMask = (findRouter net rid).map bMask := by
  induction net generalizing net' with
  | nil =>
    cases net' with
    | nil => rfl
    | cons hd' tl' => simp at h
  | cons hd tl ih =>
    cases net' with
    | nil => simp at h
    | cons hd' tl' =>
      simp only [List.map_cons, List.cons.injEq] at h
      obtain ⟨h1, h2⟩ := h
      have hid : hd'.router_id = hd.router_id := congrArg Prod.fst h1
      simp only [findRouter, List.find?_cons]
      by_cases hr : hd.router_id = rid
      · simp [hid, hr, h1]
      · simpa [hid, hr] using ih h2

theorem asOutside_congr {net net' : BGPNet}
    (h : net'.map bMask = net.map bMask) (p : List Int) :
    asOutside net' p = asOutside net p := by
  have key : ∀ (m : BGPNet), asOutside m p =
      (m.map bMask).countP (fun t => decide (t.2.1 ∉ p)) := by
    intro m
    rw [List.countP_map]
    rfl
  rw [key, key, h]

theorem countP_lt_of_mem {α : Type} (l : List α) (p q : α → Bool)
    (himp : ∀ x ∈ l, q x = true → p x = true)
    {r : α} (hr : r ∈ l) (hp : p r = true) (hq : q r = false) :
    l.countP q < l.countP p := by
  induction l with
  | nil => cases hr
  | cons hd tl ih =>
    rw [List.countP_cons, List.countP_cons]
    rcases List.mem_cons.mp hr with h0 | h0
    · subst h0
      have hle : tl.countP q ≤ tl.countP p :=
        List.countP_mono_left (fun x hx => himp x (List.mem_cons_of_mem _ hx))
      simp [hp, hq]
      omega
    · have hhd : (if q hd = true then 1 else 0) ≤ (if p hd = true then 1 else 0) := by
        by_cases hqh : q hd = true
        · simp [hqh, himp hd (List.mem_cons_self _ _) hqh]
        · simp [hqh]
      have := ih (fun x hx => himp x (List.mem_cons_of_mem _ hx)) h0
      omega

theorem asOutside_prepend_lt {net : BGPNet} {r : BGPRouterState} {p : List Int}
    (hmem : r ∈ net) (hout : r.as_number ∉ p) :
    asOutside net (r.as_number :: p) < asOutside net p := by
  apply countP_lt_of_mem net _ _ _ hmem
  · simp [hout]
  · simp
  · intro x _ hx
    simp at hx ⊢
    exact hx.2

/-! ## BGP cascade lemmas -/

/-- A call cascade only rewrites routing tables: ids, AS numbers and peer
sets of all routers are untouched. -/
theorem bgpRun_mask :
    ∀ (fuel : Nat) (net : BGPNet) (call : BGPCall) (net' : BGPNet),
      bgpRun fuel net call = some net' → net'.map bMask = net.map bMask := by
  intro fuel
  induction fuel with
  | zero => intro net call net' h; simp [bgpRun] at h
  | succ fuel ih =>
    intro net call net' h
    cases call with
    | recv rid pfx route =>
      simp only [bgpRun] at h
      split at h
      · cases h; rfl
      · split at h
        · cases h; rfl
        · split at h
          · rw [ih _ _ _ h, setTable_bMask]
          · cases h; rfl
    | adv rid pfx nh pathOpt =>
      simp only [bgpRun] at h
      split at h
      · cases h; rfl
      · refine runSeq_inv _ (fun s => s.map bMask = net.map bMask) ?_ _ _ net' ?_ h
        · intro s a s' hQs hstep
          rw [ih _ _ _ hstep, hQs]
        · exact setTable_bMask _ _ _ _

/-- Unfolding equation for a `receive_route` call on an existing router. -/
theorem bgpRun_recv_eq (fuel : Nat) (net : BGPNet) (rid pfx : String)
    (route : BGPRoute) (r : BGPRouterState) (hf : findRouter net rid = some r) :
    bgpRun (fuel + 1) net (BGPCall.recv rid pfx route) =
      if r.as_number ∈ route.as_path then some net
      else if acceptRoute r.routing_table pfx route then
        bgpRun fuel (setTable net rid pfx route)
          (BGPCall.adv rid pfx route.next_hop (some route.as_path))
      else some net := by
  simp only [bgpRun, hf]

/-- Unfolding equation for an `advertise_route` call on an existing
router. -/
theorem bgpRun_adv_eq (fuel : Nat) (net : BGPNet) (rid pfx nh : String)
    (pathOpt : Option (List Int)) (r : BGPRouterState)
    (hf : findRouter net rid = some r) :
    bgpRun (fuel + 1) net (BGPCall.adv rid pfx nh pathOpt) =
      runSeq
        (fun n pid => bgpRun fuel n (BGPCall.recv pid pfx
          ⟨pfx, builtPath net rid pathOpt, nh, 100, 0⟩))
        (setTable net rid pfx ⟨pfx, builtPath net rid pathOpt, nh, 100, 0⟩)
        r.peers := by
  simp only [bgpRun, hf, builtPath]

/-- A cascade whose carried path already contains the AS number of router
`rid` leaves that router's entire state unchanged: every delivery to it is
dropped by the loop-prevention check. -/
theorem bgpRun_frozen :
    ∀ (fuel : Nat) (net : BGPNet) (call : BGPCall) (net' : BGPNet)
      (rid : String) (a : Int),
      (findRouter net rid).map (·.as_number) = some a →
      bgpCarries rid a call →
      bgpRun fuel net call = some net' →
      findRouter net' rid = findRouter net rid := by
  intro fuel
  induction fuel with
  | zero => intro net call net' rid a _ _ h; simp [bgpRun] at h
  | succ fuel ih =>
    intro net call net' rid a ha hc h
    cases call with
    | recv rid2 pfx route =>
      simp only [bgpCarries] at hc
      cases hf : findRouter net rid2 with
      | none => rw [bgpRun, hf] at h; cases h; rfl
      | some r2 =>
        rw [bgpRun_recv_eq fuel net rid2 pfx route r2 hf] at h
        by_cases hmem : r2.as_number ∈ route.as_path
        · rw [if_pos hmem] at h; cases h; rfl
        · rw [if_neg hmem] at h
          have hne : rid2 ≠ rid := by
            intro hEq
            subst hEq
            rw [hf] at ha
            simp at ha
            exact hmem (ha ▸ hc)
          by_cases hacc : acceptRoute r2.routing_table pfx route = true
          · rw [if_pos hacc] at h
            have ha1 : (findRouter (setTable net rid2 pfx route) rid).map
                (·.as_number) = some a := by
              rw [findRouter_setTable_ne _ _ _ _ _ (Ne.symm hne)]
              exact ha
            have := ih (setTable net rid2 pfx route)
              (BGPCall.adv rid2 pfx route.next_hop (some route.as_path))
              net' rid a ha1 ⟨hne, route.as_path, rfl, hc⟩ h
            rw [this, findRouter_setTable_ne _ _ _ _ _ (Ne.symm hne)]
          · rw [if_neg hacc] at h; cases h; rfl
    | adv rid2 pfx nh pathOpt =>
      simp only [bgpCarries] at hc
      obtain ⟨hne, p, hp, hap⟩ := hc
      subst hp
      cases hf : findRouter net rid2 with
      | none => rw [bgpRun, hf] at h; cases h; rfl
      | some r2 =>
        rw [bgpRun_adv_eq fuel net rid2 pfx nh (some p) r2 hf] at h
        have hstart : findRouter (setTable net rid2 pfx
            ⟨pfx, builtPath net rid2 (some p), nh, 100, 0⟩) rid =
            findRouter net rid :=
          findRouter_setTable_ne _ _ _ _ _ (Ne.symm hne)
        have hpath : a ∈ builtPath net rid2 (some p) := by
          simp only [builtPath, hf]
          exact List.mem_cons_of_mem _ hap
        refine runSeq_inv _ (fun s => findRouter s rid = findRouter net rid)
          ?_ _ _ net' hstart h
        intro s x s' hQs hstep
        have has : (findRouter s rid).map (·.as_number) = some a := by
          rw [hQs]; exact ha
        rw [ih s (BGPCall.recv x pfx ⟨pfx, builtPath net rid2 (some p), nh, 100, 0⟩)
          s' rid a has hpath hstep, hQs]

/-- `setTable` twice at the same key collapses to the second write. -/
theorem setTable_setTable (net : BGPNet) (rid pfx : String) (rt rt' : BGPRoute) :
    setTable (setTable net rid pfx rt) rid pfx rt' = setTable net rid pfx rt' := by
  unfold setTable
  rw [List.map_map]
  apply List.map_congr_left
  intro r _
  by_cases h : r.router_id = rid <;> simp [Function.comp, h, alSet_alSet]

/-- Postcondition of an accepted `receive_route` call: once the whole
cascade has returned, the receiving router's state differs from before in
exactly one way — the table entry for the prefix is the received route
with the own AS number prepended (written by the re-advertisement step,
which overwrites the just-installed copy of the received route). -/
theorem bgpRun_recv_accept :
    ∀ (fuel : Nat) (net : BGPNet) (rid pfx : String) (route : BGPRoute)
      (r : BGPRouterState) (net' : BGPNet),
      findRouter net rid = some r →
      r.as_number ∉ route.as_path →
      acceptRoute r.routing_table pfx route = true →
      bgpRun fuel net (BGPCall.recv rid pfx route) = some net' →
      findRouter net' rid = some
        { r with routing_table := (alSet r.routing_table pfx
            ⟨pfx, r.as_number :: route.as_path, route.next_hop, 100, 0⟩) } := by
  intro fuel net rid pfx route r net' hf hmem hacc h
  match fuel with
  | 0 => simp [bgpRun] at h
  | 1 =>
    rw [bgpRun_recv_eq 0 net rid pfx route r hf, if_neg hmem, if_pos hacc] at h
    simp [bgpRun] at h
  | fuel + 2 =>
    rw [bgpRun_recv_eq (fuel + 1) net rid pfx route r hf, if_neg hmem,
      if_pos hacc] at h
    have hf1 : findRouter (setTable net rid pfx route) rid = some
        { r with routing_table := alSet r.routing_table pfx route } := by
      rw [findRouter_setTable_self, hf]
      rfl
    rw [bgpRun_adv_eq fuel (setTable net rid pfx route) rid pfx route.next_hop
      (some route.as_path) _ hf1] at h
    have hbuilt : builtPath (setTable net rid pfx route) rid (some route.as_path) =
        r.as_number :: route.as_path := by
      simp [builtPath, hf1]
    rw [hbuilt, setTable_setTable] at h
    have hf2 : findRouter (setTable net rid pfx
        ⟨pfx, r.as_number :: route.as_path, route.next_hop, 100, 0⟩) rid = some
        { r with routing_table := (alSet r.routing_table pfx
            ⟨pfx, r.as_number :: route.as_path, route.next_hop, 100, 0⟩) } := by
      rw [findRouter_setTable_self, hf]
      rfl
    have hfrozen : findRouter net' rid = findRouter (setTable net rid pfx
        ⟨pfx, r.as_number :: route.as_path, route.next_hop, 100, 0⟩) rid := by
      refine runSeq_inv _
        (fun s => findRouter s rid = findRouter (setTable net rid pfx
          ⟨pfx, r.as_number :: route.as_path, route.next_hop, 100, 0⟩) rid)
        ?_ _ _ net' rfl h
      intro s x s' hQs hstep
      have has : (findRouter s rid).map (·.as_number) = some r.as_number := by
        rw [hQs, hf2]
        rfl
      rw [bgpRun_frozen fuel s (BGPCall.recv x pfx
        ⟨pfx, r.as_number :: route.as_path, route.next_hop, 100, 0⟩) s' rid
        r.as_number has (List.mem_cons_self _ _) hstep]
      exact hQs
    rw [hfrozen, hf2]

/-- A rejected `receive_route` call (existing entry at most as long) is a
complete no-op on the whole network. -/
theorem bgpRun_recv_reject (fuel : Nat) (net : BGPNet) (rid pfx : String)
    (route : BGPRoute) (r : BGPRouterState) (hf : findRouter net rid = some r)
    (hacc : acceptRoute r.routing_table pfx route = false) :
    bgpRun (fuel + 1) net (BGPCall.recv rid pfx route) = some net := by
  rw [bgpRun_recv_eq fuel net rid pfx route r hf]
  by_cases hmem : r.as_number ∈ route.as_path
  · rw [if_pos hmem]
  · rw [if_neg hmem, if_neg (by simp [hacc])]

/-- Ids survive a cascade, so distinctness of ids survives it. -/
theorem bgpRun_nodup {fuel : Nat} {net : BGPNet} {call : BGPCall} {net' : BGPNet}
    (h : bgpRun fuel net call = some net') (hnd : bgpNodupIds net) :
    bgpNodupIds net' := by
  have hm := bgpRun_mask fuel net call net' h
  unfold bgpNodupIds at *
  have hids : net'.map (·.router_id) = net.map (·.router_id) := by
    have h1 : net'.map (fun r : BGPRouterState => r.router_id) =
        (net'.map bMask).map (·.1) := by
      rw [List.map_map]; rfl
    have h2 : net.map (fun r : BGPRouterState => r.router_id) =
        (net.map bMask).map (·.1) := by
      rw [List.map_map]; rfl
    rw [h1, h2, hm]
  rw [hids]
  exact hnd

/-- With unique ids, a member with the right id is what `findRouter`
returns. -/
theorem findRouter_eq_of_mem {net : BGPNet} {r : BGPRouterState} {rid : String}
    (hnd : bgpNodupIds net) (hr : r ∈ net) (hid : r.router_id = rid) :
    findRouter net rid = some r := by
  induction net with
  | nil => cases hr
  | cons hd tl ihn =>
    obtain ⟨hnotin, hndtl⟩ := List.nodup_cons.mp hnd
    rcases List.mem_cons.mp hr with rfl | hr0
    · simp [findRouter, hid]
    · have hne : ¬ hd.router_id = rid := by
        intro hEq
        apply hnotin
        show hd.router_id ∈ tl.map (fun x => x.router_id)
        rw [hEq, ← hid]
        exact List.mem_map_of_mem _ hr0
      unfold findRouter
      rw [List.find?_cons_of_neg _ (by simp [hne])]
      exact ihn hndtl hr0

/-- Fuel sufficiency: any call whose `fuelNeed` is covered terminates
within the fuel bound.  Each accepted hop prepends an AS number that was
outside the carried path, so the number of routers still able to accept
strictly shrinks along every re-advertisement chain. -/
theorem bgpRun_isSome :
    ∀ (fuel : Nat) (net : BGPNet) (call : BGPCall),
      fuelNeed net call ≤ fuel → ∃ net', bgpRun fuel net call = some net' := by
  intro fuel
  induction fuel with
  | zero =>
    intro net call h
    exfalso
    cases call <;> simp [fuelNeed] at h
  | succ fuel ih =>
    intro net call h
    cases call with
    | recv rid pfx route =>
      cases hf : findRouter net rid with
      | none => exact ⟨net, by simp only [bgpRun, hf]⟩
      | some r =>
        by_cases hmem : r.as_number ∈ route.as_path
        · exact ⟨net, by rw [bgpRun_recv_eq fuel net rid pfx route r hf, if_pos hmem]⟩
        · by_cases hacc : acceptRoute r.routing_table pfx route = true
          · have hlt : asOutside net (r.as_number :: route.as_path) <
                asOutside net route.as_path :=
              asOutside_prepend_lt (findRouter_mem hf) hmem
            have hb : builtPath (setTable net rid pfx route) rid
                (some route.as_path) = r.as_number :: route.as_path := by
              simp [builtPath, findRouter_setTable_self, hf]
            have hneed : fuelNeed (setTable net rid pfx route)
                (BGPCall.adv rid pfx route.next_hop (some route.as_path)) ≤ fuel := by
              simp only [fuelNeed, hb]
              rw [asOutside_congr (setTable_bMask net rid pfx route)]
              simp only [fuelNeed] at h
              omega
            obtain ⟨net', hrun⟩ := ih _ _ hneed
            exact ⟨net', by
              rw [bgpRun_recv_eq fuel net rid pfx route r hf, if_neg hmem,
                if_pos hacc]
              exact hrun⟩
          · exact ⟨net, by
              rw [bgpRun_recv_eq fuel net rid pfx route r hf, if_neg hmem,
                if_neg hacc]⟩
    | adv rid pfx nh pathOpt =>
      cases hf : findRouter net rid with
      | none => exact ⟨net, by simp only [bgpRun, hf]⟩
      | some r =>
        have hseq := runSeq_isSome
          (fun n pid => bgpRun fuel n (BGPCall.recv pid pfx
            ⟨pfx, builtPath net rid pathOpt, nh, 100, 0⟩))
          (fun s => s.map bMask = net.map bMask)
          ?_ r.peers (setTable net rid pfx
            ⟨pfx, builtPath net rid pathOpt, nh, 100, 0⟩)
          (setTable_bMask _ _ _ _)
        · obtain ⟨net', hrun, _⟩ := hseq
          exact ⟨net', by
            rw [bgpRun_adv_eq fuel net rid pfx nh pathOpt r hf]
            exact hrun⟩
        · intro s x hQs
          have hneed : fuelNeed s (BGPCall.recv x pfx
              ⟨pfx, builtPath net rid pathOpt, nh, 100, 0⟩) ≤ fuel := by
            simp only [fuelNeed]
            rw [asOutside_congr hQs]
            simp only [fuelNeed] at h
            omega
          obtain ⟨s', hs'⟩ := ih _ _ hneed
          refine ⟨s', hs', ?_⟩
          show s'.map bMask = net.map bMask
          rw [bgpRun_mask fuel s _ s' hs']
          exact hQs

/-- Writing an own-AS-headed route preserves the own-AS-head invariant. -/
theorem setTable_ownAsHead {net : BGPNet} {rid pfx : String} {rt : BGPRoute}
    {r : BGPRouterState} (hnd : bgpNodupIds net) (hf : findRouter net rid = some r)
    (hinv : bgpOwnAsHead net) (hhead : rt.as_path.head? = some r.as_number) :
    bgpOwnAsHead (setTable net rid pfx rt) := by
  intro r1 hr1 e he
  simp only [setTable, List.mem_map] at hr1
  obtain ⟨r0, hr0, rdef⟩ := hr1
  by_cases hid : r0.router_id = rid
  · have hr0r : r0 = r := by
      have := findRouter_eq_of_mem hnd hr0 hid
      rw [hf] at this
      exact Option.some.inj this.symm   
    rw [if_pos hid] at rdef
    subst rdef
    rcases mem_alSet he with rfl | hmem0
    · show rt.as_path.head? = some r0.as_number
      rw [hr0r]
      exact hhead
    · exact hinv r0 hr0 e hmem0
  · rw [if_neg hid] at rdef
    subst rdef
    exact hinv r0 hr0 e he

/-- Id-distinctness only depends on the `bMask` image. -/
theorem bMask_nodup {net net' : BGPNet} (hm : net'.map bMask = net.map bMask)
    (hnd : bgpNodupIds net) : bgpNodupIds net' := by
  unfold bgpNodupIds at *
  have hids : net'.map (·.router_id) = net.map (·.router_id) := by
    have h1 : net'.map (fun r : BGPRouterState => r.router_id) =
        (net'.map bMask).map (·.1) := by
      rw [List.map_map]; rfl
    have h2 : net.map (fun r : BGPRouterState => r.router_id) =
        (net.map bMask).map (·.1) := by
      rw [List.map_map]; rfl
    rw [h1, h2, hm]
  rw [hids]
  exact hnd

/-- The own-AS-head invariant survives every call cascade: every route the
engine ever writes into a routing table carries the writing router's AS
number as the head of its path. -/
theorem bgpRun_ownAsHead :
    ∀ (fuel : Nat) (net : BGPNet) (call : BGPCall) (net' : BGPNet),
      bgpNodupIds net → bgpOwnAsHead net →
      bgpRun fuel net call = some net' → bgpOwnAsHead net' := by
  intro fuel
  induction fuel using Nat.strong_induction_on with
  | _ fuel ih =>
    intro net call net' hnd hinv h
    cases call with
    | recv rid pfx route =>
      cases fuel with
      | zero => simp [bgpRun] at h
      | succ f =>
        cases hf : findRouter net rid with
        | none =>
          simp only [bgpRun, hf] at h
          cases h
          exact hinv
        | some r =>
          rw [bgpRun_recv_eq f net rid pfx route r hf] at h
          by_cases hmem : r.as_number ∈ route.as_path
          · rw [if_pos hmem] at h; cases h; exact hinv
          · rw [if_neg hmem] at h
            by_cases hacc : acceptRoute r.routing_table pfx route = true
            · rw [if_pos hacc] at h
              cases f with
              | zero => simp [bgpRun] at h
              | succ f2 =>
                have hf1 : findRouter (setTable net rid pfx route) rid = some
                    { r with routing_table := alSet r.routing_table pfx route } := by
                  rw [findRouter_setTable_self, hf]
                  rfl
                rw [bgpRun_adv_eq f2 _ rid pfx route.next_hop
                  (some route.as_path) _ hf1] at h
                have hbuilt : builtPath (setTable net rid pfx route) rid
                    (some route.as_path) = r.as_number :: route.as_path := by
                  simp [builtPath, hf1]
                rw [hbuilt, setTable_setTable] at h
                have hinv2 : bgpOwnAsHead (setTable net rid pfx
                    ⟨pfx, r.as_number :: route.as_path, route.next_hop, 100, 0⟩) :=
                  setTable_ownAsHead hnd hf hinv rfl
                have hnd2 : bgpNodupIds (setTable net rid pfx
                    ⟨pfx, r.as_number :: route.as_path, route.next_hop, 100, 0⟩) :=
                  bMask_nodup (setTable_bMask _ _ _ _) hnd
                refine (runSeq_inv _ (fun s => bgpNodupIds s ∧ bgpOwnAsHead s)
                  ?_ _ _ net' ⟨hnd2, hinv2⟩ h).2
                intro s x s' hQ hstep
                exact ⟨bgpRun_nodup hstep hQ.1,
                  ih f2 (by omega) s _ s' hQ.1 hQ.2 hstep⟩
            · rw [if_neg hacc] at h; cases h; exact hinv
    | adv rid pfx nh pathOpt =>
      cases fuel with
      | zero => simp [bgpRun] at h
      | succ f =>
        cases hf : findRouter net rid with
        | none =>
          simp only [bgpRun, hf] at h
          cases h
          exact hinv
        | some r =>
          rw [bgpRun_adv_eq f net rid pfx nh pathOpt r hf] at h
          have hhead : (builtPath net rid pathOpt).head? = some r.as_number := by
            cases pathOpt <;> simp [builtPath, hf]
          have hinv1 : bgpOwnAsHead (setTable net rid pfx
              ⟨pfx, builtPath net rid pathOpt, nh, 100, 0⟩) :=
            setTable_ownAsHead hnd hf hinv hhead
          have hnd1 : bgpNodupIds (setTable net rid pfx
              ⟨pfx, builtPath net rid pathOpt, nh, 100, 0⟩) :=
            bMask_nodup (setTable_bMask _ _ _ _) hnd
          refine (runSeq_inv _ (fun s => bgpNodupIds s ∧ bgpOwnAsHead s)
            ?_ _ _ net' ⟨hnd1, hinv1⟩ h).2
          intro s x s' hQ hstep
          exact ⟨bgpRun_nodup hstep hQ.1, ih f (by omega) s _ s' hQ.1 hQ.2 hstep⟩

/-- Reachable BGP networks have distinct router ids and satisfy the
own-AS-head table invariant. -/
theorem bgpReachable_inv {net : BGPNet} (h : BGPReachable net) :
    bgpNodupIds net ∧ bgpOwnAsHead net := by
  induction h with
  | init l hids =>
    constructor
    · unfold bgpNodupIds
      rw [List.map_map]
      exact hids
    · intro r hr e he
      simp only [List.mem_map] at hr
      obtain ⟨p, _, rfl⟩ := hr
      simp [mkBGPRouter] at he
  | @addPeer net0 rid prid hp h ihr =>
    obtain ⟨hnd, hinv⟩ := ihr
    constructor
    · unfold bgpNodupIds at *
      have hids : (addPeerOp net0 rid prid).map (fun r : BGPRouterState => r.router_id) =
          List.map (fun r : BGPRouterState => r.router_id) net0 := by
        unfold addPeerOp
        rw [List.map_map]
        apply List.map_congr_left
        intro r _
        by_cases hid : r.router_id = rid <;> simp [Function.comp, hid]
      rw [hids]
      exact hnd
    · intro r hr e he
      simp only [addPeerOp, List.mem_map] at hr
      obtain ⟨r0, hr0, rdef⟩ := hr
      by_cases hid : r0.router_id = rid
      · rw [if_pos hid] at rdef
        subst rdef
        exact hinv r0 hr0 e he
      · rw [if_neg hid] at rdef
        subst rdef
        exact hinv r0 hr0 e he
  | step fuel call h hrun ihr =>
    obtain ⟨hnd, hinv⟩ := ihr
    exact ⟨bgpRun_nodup hrun hnd, bgpRun_ownAsHead fuel _ call _ hnd hinv hrun⟩

/-! ## OSPF structural lemmas -/

theorem findORouter_id {net : ONet} {rid : String} {r : OSPFRouterState}
    (h : findORouter net rid = some r) : r.router_id = rid := by
  have := List.find?_some h
  simpa using this

theorem findORouter_map (net : ONet) (f : OSPFRouterState → OSPFRouterState)
    (hf : ∀ r, (f r).router_id = r.router_id) (rid : String) :
    findORouter (net.map f) rid = (findORouter net rid).map f := by
  unfold findORouter
  have hcomp : ((fun r : OSPFRouterState => decide (r.router_id = rid)) ∘ f) =
      (fun r : OSPFRouterState => decide (r.router_id = rid)) := by
    funext r
    simp [Function.comp, hf r]
  rw [List.find?_map, hcomp]

theorem findORouter_updO_self (net : ONet) (rid : String)
    (f : OSPFRouterState → OSPFRouterState)
    (hf : ∀ r, (f r).router_id = r.router_id) :
    findORouter (updO net rid f) rid = (findORouter net rid).map f := by
  unfold updO
  rw [findORouter_map _ _
    (fun r => by by_cases h : r.router_id = rid <;> simp [h, hf r])]
  cases hfind : findORouter net rid with
  | none => rfl
  | some r => simp [findORouter_id hfind]

theorem findORouter_updO_ne (net : ONet) (rid rid' : String)
    (f : OSPFRouterState → OSPFRouterState)
    (hf : ∀ r, (f r).router_id = r.router_id) (h : rid' ≠ rid) :
    findORouter (updO net rid f) rid' = findORouter net rid' := by
  unfold updO
  rw [findORouter_map _ _
    (fun r => by by_cases h0 : r.router_id = rid <;> simp [h0, hf r])]
  cases hfind : findORouter net rid' with
  | none => rfl
  | some r => simp [findORouter_id hfind, h]

theorem seenOf_eq {net : ONet} {rid : String} {r : OSPFRouterState}
    (hf : findORouter net rid = some r) : seenOf net rid = r.lsa_seen := by
  unfold seenOf
  rw [hf]

theorem seenOf_mem_find {net : ONet} {rid : String} {x : String}
    (hx : x ∈ seenOf net rid) :
    ∃ r, findORouter net rid = some r ∧ x ∈ r.lsa_seen := by
  unfold seenOf at hx
  cases hf : findORouter net rid with
  | none => rw [hf] at hx; cases hx
  | some r => rw [hf] at hx; exact ⟨r, rfl, hx⟩

/-- Unfolding equation: an already-seen LSA id makes `receive_lsa` a
complete no-op on the whole network. -/
theorem ospfRun_recv_seen (fuel : Nat) (net : ONet) (rid : String) (lsa : LSA)
    (r : OSPFRouterState) (hf : findORouter net rid = some r)
    (hseen : lsaId lsa ∈ r.lsa_seen) :
    ospfRun (fuel + 1) net (OCall.recvLsa rid lsa) = some net := by
  simp only [ospfRun, hf]
  rw [if_pos hseen]

/-- Unfolding equation: a not-newer LSA is marked seen and nothing else
happens. -/
theorem ospfRun_recv_stale (fuel : Nat) (net : ONet) (rid : String) (lsa : LSA)
    (r : OSPFRouterState) (hf : findORouter net rid = some r)
    (hunseen : lsaId lsa ∉ r.lsa_seen)
    (hold : lsaNewer lsa (alGet r.lsdb lsa.router_id) = false) :
    ospfRun (fuel + 1) net (OCall.recvLsa rid lsa) =
      some (updO net rid (fun x => { x with lsa_seen := lsaId lsa :: x.lsa_seen })) := by
  simp only [ospfRun, hf]
  rw [if_neg hunseen, if_neg (by simp [hold])]

/-- Unfolding equation for `_flood_lsa` on an existing router. -/
theorem ospfRun_flood_eq (fuel : Nat) (net : ONet) (rid : String) (lsa : LSA)
    (r : OSPFRouterState) (hf : findORouter net rid = some r) :
    ospfRun (fuel + 1) net (OCall.flood rid lsa) =
      runSeq
        (fun n nbr =>
          if nbr = lsa.router_id then some n
          else ospfRun fuel n (OCall.recvLsa nbr lsa))
        net r.neighbor_routers := by
  simp only [ospfRun, hf]

/-! ## OSPF cascade lemmas -/

/-- A cascade carrying an LSA whose id router `rid` has already seen
leaves router `rid`'s entire state unchanged: every delivery to it stops
at the dedup check. -/
theorem ospfRun_frozen :
    ∀ (fuel : Nat) (net : ONet) (call : OCall) (net' : ONet) (rid : String),
      lsaId (callLsa call) ∈ seenOf net rid →
      ospfRun fuel net call = some net' →
      findORouter net' rid = findORouter net rid := by
  intro fuel
  induction fuel with
  | zero => intro net call net' rid _ h; simp [ospfRun] at h
  | succ fuel ih =>
    intro net call net' rid hseen h
    cases call with
    | recvLsa rid2 lsa =>
      simp only [callLsa] at hseen
      obtain ⟨r, hfr, hrseen⟩ := seenOf_mem_find hseen
      cases hf2 : findORouter net rid2 with
      | none => simp only [ospfRun, hf2] at h; cases h; rfl
      | some r2 =>
        by_cases heq : rid2 = rid
        · subst heq
          rw [hfr] at hf2
          cases hf2
          rw [ospfRun_recv_seen fuel net rid2 lsa r hfr hrseen] at h
          cases h
          rfl
        · by_cases hseen2 : lsaId lsa ∈ r2.lsa_seen
          · rw [ospfRun_recv_seen fuel net rid2 lsa r2 hf2 hseen2] at h
            cases h
            rfl
          · by_cases hnew : lsaNewer lsa (alGet r2.lsdb lsa.router_id) = true
            · simp only [ospfRun, hf2] at h
              rw [if_neg hseen2, if_pos hnew] at h
              have hnet2 : ∀ g : OSPFRouterState → OSPFRouterState,
                  (∀ x, (g x).router_id = x.router_id) →
                  ∀ m : ONet, findORouter (updO m rid2 g) rid = findORouter m rid :=
                fun g hg m => findORouter_updO_ne m rid2 rid g hg (fun hx => heq hx.symm)
              have hpre : findORouter (updO (updO net rid2
                  (fun x => { x with lsa_seen := lsaId lsa :: x.lsa_seen })) rid2
                  (fun x => { x with lsdb := alSet x.lsdb lsa.router_id lsa })) rid =
                  findORouter net rid := by
                rw [hnet2 (fun x => { x with lsdb := alSet x.lsdb lsa.router_id lsa })
                  (fun x => rfl),
                  hnet2 (fun x => { x with lsa_seen := lsaId lsa :: x.lsa_seen })
                  (fun x => rfl)]
              have hseen3 : lsaId lsa ∈ seenOf (updO (updO net rid2
                  (fun x => { x with lsa_seen := lsaId lsa :: x.lsa_seen })) rid2
                  (fun x => { x with lsdb := alSet x.lsdb lsa.router_id lsa })) rid := by
                unfold seenOf
                rw [hpre, hfr]
                exact hrseen
              split at h
              · simp at h
              · rename_i net3 hflood
                have hflood3 : findORouter net3 rid = findORouter net rid := by
                  rw [ih _ (OCall.flood rid2 lsa) net3 rid hseen3 hflood, hpre]
                split at h
                · simp at h
                · rename_i r3 hf3
                  split at h
                  · simp at h
                  · rename_i tbl hspf
                    simp only [Option.some.injEq] at h
                    rw [← h, hnet2 (fun x => { x with routing_table := tbl })
                      (fun x => rfl) net3, hflood3]
            · rw [ospfRun_recv_stale fuel net rid2 lsa r2 hf2 hseen2
                (by simpa using hnew)] at h
              cases h
              exact findORouter_updO_ne net rid2 rid
                (fun x => { x with lsa_seen := lsaId lsa :: x.lsa_seen })
                (fun x => rfl) (fun hx => heq hx.symm)
    | flood rid2 lsa =>
      simp only [callLsa] at hseen
      obtain ⟨r, hfr, hrseen⟩ := seenOf_mem_find hseen
      cases hf2 : findORouter net rid2 with
      | none => simp only [ospfRun, hf2] at h; cases h; rfl
      | some r2 =>
        rw [ospfRun_flood_eq fuel net rid2 lsa r2 hf2] at h
        refine runSeq_inv _ (fun s => findORouter s rid = findORouter net rid)
          ?_ _ _ net' rfl h
        intro s x s' hQs hstep
        by_cases hx : x = lsa.router_id
        · rw [if_pos hx] at hstep
          cases hstep
          exact hQs
        · rw [if_neg hx] at hstep
          have hseenS : lsaId lsa ∈ seenOf s rid := by
            unfold seenOf
            rw [hQs, hfr]
            exact hrseen
          rw [ih s (OCall.recvLsa x lsa) s' rid hseenS hstep]
          exact hQs

/-- Postcondition of an installing `receive_lsa` call: the id is marked
seen, the LSA replaces the LSDB slot of its originator, and the routing
table is the full SPF output over the updated LSDB (the nested flood
cannot change this router again because the id is already marked). -/
theorem ospfRun_recv_install :
    ∀ (fuel : Nat) (net : ONet) (rid : String) (lsa : LSA)
      (r : OSPFRouterState) (net' : ONet),
      findORouter net rid = some r →
      lsaId lsa ∉ r.lsa_seen →
      lsaNewer lsa (alGet r.lsdb lsa.router_id) = true →
      ospfRun fuel net (OCall.recvLsa rid lsa) = some net' →
      ∃ tbl, runSpf (alSet r.lsdb lsa.router_id lsa) rid = some tbl ∧
        findORouter net' rid = some
          { r with lsa_seen := lsaId lsa :: r.lsa_seen,
                   lsdb := alSet r.lsdb lsa.router_id lsa,
                   routing_table := tbl } := by
  intro fuel net rid lsa r net' hf hunseen hnew h
  match fuel with
  | 0 => simp [ospfRun] at h
  | fuel + 1 =>
    simp only [ospfRun, hf] at h
    rw [if_neg hunseen, if_pos hnew] at h
    have hf2 : findORouter (updO (updO net rid
        (fun x => { x with lsa_seen := lsaId lsa :: x.lsa_seen })) rid
        (fun x => { x with lsdb := alSet x.lsdb lsa.router_id lsa })) rid =
        some { r with lsa_seen := lsaId lsa :: r.lsa_seen,
                      lsdb := alSet r.lsdb lsa.router_id lsa } := by
      rw [findORouter_updO_self _ _
          (fun x => { x with lsdb := alSet x.lsdb lsa.router_id lsa })
          (fun x => rfl),
        findORouter_updO_self _ _
          (fun x => { x with lsa_seen := lsaId lsa :: x.lsa_seen })
          (fun x => rfl), hf]
      rfl
    split at h
    · simp at h
    · rename_i net3 hflood
      have hseen2 : lsaId lsa ∈ seenOf (updO (updO net rid
          (fun x => { x with lsa_seen := lsaId lsa :: x.lsa_seen })) rid
          (fun x => { x with lsdb := alSet x.lsdb lsa.router_id lsa })) rid := by
        rw [seenOf_eq hf2]
        exact List.mem_cons_self _ _
      have hfr3 : findORouter net3 rid = some
          { r with lsa_seen := lsaId lsa :: r.lsa_seen,
                   lsdb := alSet r.lsdb lsa.router_id lsa } := by
        rw [ospfRun_frozen fuel _ (OCall.flood rid lsa) net3 rid hseen2 hflood]
        exact hf2
      split at h
      · simp at h
      · rename_i r3 hf3
        have hr3 : r3 =
            { r with lsa_seen := lsaId lsa :: r.lsa_seen,
                     lsdb := alSet r.lsdb lsa.router_id lsa } := by
          rw [hfr3] at hf3
          exact (Option.some.inj hf3).symm
        subst hr3
        split at h
        · simp at h
        · rename_i tbl hspf
          simp only [Option.some.injEq] at h
          refine ⟨tbl, hspf, ?_⟩
          rw [← h, findORouter_updO_self _ _
            (fun x => { x with routing_table := tbl }) (fun x => rfl), hfr3]
          rfl

/-- After any `receive_lsa` call on an existing router, the LSA's id is
in that router's seen set. -/
theorem ospfRun_recv_seen_after :
    ∀ (fuel : Nat) (net : ONet) (rid : String) (lsa : LSA)
      (r : OSPFRouterState) (net' : ONet),
      findORouter net rid = some r →
      ospfRun fuel net (OCall.recvLsa rid lsa) = some net' →
      lsaId lsa ∈ seenOf net' rid := by
  intro fuel net rid lsa r net' hf h
  match fuel with
  | 0 => simp [ospfRun] at h
  | fuel + 1 =>
    by_cases hseen : lsaId lsa ∈ r.lsa_seen
    · rw [ospfRun_recv_seen fuel net rid lsa r hf hseen] at h
      cases h
      rw [seenOf_eq hf]
      exact hseen
    · by_cases hnew : lsaNewer lsa (alGet r.lsdb lsa.router_id) = true
      · obtain ⟨tbl, _, hfr⟩ :=
          ospfRun_recv_install (fuel + 1) net rid lsa r net' hf hseen hnew h
        rw [seenOf_eq hfr]
        exact List.mem_cons_self _ _
      · rw [ospfRun_recv_stale fuel net rid lsa r hf hseen
          (by simpa using hnew)] at h
        cases h
        have hfr : findORouter (updO net rid
            (fun x => { x with lsa_seen := lsaId lsa :: x.lsa_seen })) rid =
            some { r with lsa_seen := lsaId lsa :: r.lsa_seen } := by
          rw [findORouter_updO_self _ _
            (fun x => { x with lsa_seen := lsaId lsa :: x.lsa_seen })
            (fun x => rfl), hf]
          rfl
        rw [seenOf_eq hfr]
        exact List.mem_cons_self _ _

/-! ## Claim theorems -/

/-- C1: for every BGP router `R` and every incoming route whose `as_path`
contains `R`'s own AS number, `receive_route` on `R` returns with the
whole network state — in particular `R`'s routing table and all other
state of `R` — unchanged, and triggers no propagation to any peer. -/
theorem claim1_bgp_loop_prevention (fuel : Nat) (net : BGPNet)
    (rid pfx : String) (route : BGPRoute) (r : BGPRouterState)
    (hfuel : 0 < fuel)
    (hf : findRouter net rid = some r)
    (hmem : r.as_number ∈ route.as_path) :
    bgpRun fuel net (BGPCall.recv rid pfx route) = some net := by
  cases fuel with
  | zero => omega
  | succ f => rw [bgpRun_recv_eq f net rid pfx route r hf, if_pos hmem]

theorem claim1_witness :
    bgpRun 1 [mkBGPRouter 10 "R1"]
      (BGPCall.recv "R1" "p" ⟨"p", [7, 10], "h", 100, 0⟩) =
    some [mkBGPRouter 10 "R1"] :=
  claim1_bgp_loop_prevention 1 [mkBGPRouter 10 "R1"] "R1" "p"
    ⟨"p", [7, 10], "h", 100, 0⟩ (mkBGPRouter 10 "R1") (by omega) rfl (by decide)

/-- C10: whenever `receive_route` accepts an incoming route (own AS not
in its path, and the prefix absent from the table or the incoming path
strictly shorter than the installed one), the table entry left for that
prefix after the whole call is the received path with the router's own AS
number prepended — one element longer than the received path — because
the re-advertisement step overwrites the just-installed route. -/
theorem claim10_accept_prepend_overwrite (fuel : Nat) (net net' : BGPNet)
    (rid pfx : String) (route : BGPRoute) (r : BGPRouterState)
    (hf : findRouter net rid = some r)
    (hmem : r.as_number ∉ route.as_path)
    (hacc : acceptRoute r.routing_table pfx route = true)
    (hrun : bgpRun fuel net (BGPCall.recv rid pfx route) = some net') :
    bgpEntryPath net' rid pfx = some (r.as_number :: route.as_path) ∧
    (r.as_number :: route.as_path).length = route.as_path.length + 1 := by
  have hfr := bgpRun_recv_accept fuel net rid pfx route r net' hf hmem hacc hrun
  constructor
  · unfold bgpEntryPath
    rw [hfr]
    show (alGet (alSet r.routing_table pfx
      ⟨pfx, r.as_number :: route.as_path, route.next_hop, 100, 0⟩) pfx).map
      (·.as_path) = some (r.as_number :: route.as_path)
    rw [alGet_alSet_self]
    rfl
  · rfl

theorem claim10_witness :
    bgpEntryPath ((bgpRun 3 [mkBGPRouter 10 "R1"]
        (BGPCall.recv "R1" "p" ⟨"p", [1], "h", 100, 0⟩)).getD []) "R1" "p" =
      some [10, 1] ∧
    ([(10 : Int), 1]).length = ([(1 : Int)]).length + 1 :=
  claim10_accept_prepend_overwrite 3 [mkBGPRouter 10 "R1"]
    ((bgpRun 3 [mkBGPRouter 10 "R1"]
      (BGPCall.recv "R1" "p" ⟨"p", [1], "h", 100, 0⟩)).getD [])
    "R1" "p" ⟨"p", [1], "h", 100, 0⟩ (mkBGPRouter 10 "R1")
    rfl (by decide) (by decide) (by decide)

/-- C2 counterexample: router with AS 10, two routes for prefix "p" with
path lengths L1 = 1 < L2 = 2, neither containing 10, delivered in order;
the claim predicts a final entry of length L1 = 1, but the code leaves
length 2 (the shorter path with the own AS prepended). -/
theorem claim2_counterexample :
    ¬ ((bgpEntryPath ((bgpRun 3 ((bgpRun 3 [mkBGPRouter 10 "R1"]
        (BGPCall.recv "R1" "p" ⟨"p", [1], "h1", 100, 0⟩)).getD [])
        (BGPCall.recv "R1" "p" ⟨"p", [2, 3], "h2", 100, 0⟩)).getD []) "R1" "p").map
        List.length = some 1) := by
  decide

/-- C2 amended: for two routes for the same prefix with path lengths
L1 < L2 (neither containing the router's AS, no prior entry for the
prefix), delivery in either order leaves the final table entry equal to
the shorter path with the router's own AS prepended — length exactly
L1 + 1, not L1. -/
theorem claim2_amended (f1 f2 f3 f4 : Nat) (net netA netB netC netD : BGPNet)
    (rid pfx : String) (rt1 rt2 : BGPRoute) (r : BGPRouterState)
    (hf : findRouter net rid = some r)
    (hfresh : alGet r.routing_table pfx = none)
    (hm1 : r.as_number ∉ rt1.as_path)
    (hm2 : r.as_number ∉ rt2.as_path)
    (hlen : rt1.as_path.length < rt2.as_path.length)
    (hA : bgpRun f1 net (BGPCall.recv rid pfx rt1) = some netA)
    (hB : bgpRun f2 netA (BGPCall.recv rid pfx rt2) = some netB)
    (hC : bgpRun f3 net (BGPCall.recv rid pfx rt2) = some netC)
    (hD : bgpRun f4 netC (BGPCall.recv rid pfx rt1) = some netD) :
    bgpEntryPath netB rid pfx = some (r.as_number :: rt1.as_path) ∧
    bgpEntryPath netD rid pfx = some (r.as_number :: rt1.as_path) := by
  have hacc1 : acceptRoute r.routing_table pfx rt1 = true := by
    unfold acceptRoute
    rw [hfresh]
  have hfrA := bgpRun_recv_accept f1 net rid pfx rt1 r netA hf hm1 hacc1 hA
  have hgetA : alGet (alSet r.routing_table pfx
      ⟨pfx, r.as_number :: rt1.as_path, rt1.next_hop, 100, 0⟩) pfx =
      some ⟨pfx, r.as_number :: rt1.as_path, rt1.next_hop, 100, 0⟩ :=
    alGet_alSet_self _ _ _
  constructor
  · -- order rt1 then rt2: the second delivery is rejected
    have hrej : acceptRoute (alSet r.routing_table pfx
        ⟨pfx, r.as_number :: rt1.as_path, rt1.next_hop, 100, 0⟩) pfx rt2 = false := by
      unfold acceptRoute
      rw [hgetA]
      simp only [decide_eq_false_iff_not]
      show ¬ rt2.as_path.length < (r.as_number :: rt1.as_path).length
      simp only [List.length_cons]
      omega
    cases f2 with
    | zero => simp [bgpRun] at hB
    | succ f =>
      rw [bgpRun_recv_reject f netA rid pfx rt2 _ hfrA hrej] at hB
      cases hB
      unfold bgpEntryPath
      rw [hfrA]
      show (alGet (alSet r.routing_table pfx
        ⟨pfx, r.as_number :: rt1.as_path, rt1.next_hop, 100, 0⟩) pfx).map
        (·.as_path) = some (r.as_number :: rt1.as_path)
      rw [hgetA]
      rfl
  · -- order rt2 then rt1: the second delivery replaces the first
    have hacc2 : acceptRoute r.routing_table pfx rt2 = true := by
      unfold acceptRoute
      rw [hfresh]
    have hfrC := bgpRun_recv_accept f3 net rid pfx rt2 r netC hf hm2 hacc2 hC
    have haccD : acceptRoute (alSet r.routing_table pfx
        ⟨pfx, r.as_number :: rt2.as_path, rt2.next_hop, 100, 0⟩) pfx rt1 = true := by
      unfold acceptRoute
      rw [alGet_alSet_self]
      simp only [decide_eq_true_eq]
      show rt1.as_path.length < (r.as_number :: rt2.as_path).length
      simp only [List.length_cons]
      omega
    have hfrD := bgpRun_recv_accept f4 netC rid pfx rt1 _ netD hfrC hm1 haccD hD
    unfold bgpEntryPath
    rw [hfrD]
    show (alGet (alSet (alSet r.routing_table pfx
      ⟨pfx, r.as_number :: rt2.as_path, rt2.next_hop, 100, 0⟩) pfx
      ⟨pfx, r.as_number :: rt1.as_path, rt1.next_hop, 100, 0⟩) pfx).map
      (·.as_path) = some (r.as_number :: rt1.as_path)
    rw [alSet_alSet, alGet_alSet_self]
    rfl

theorem claim2_witness :
    bgpEntryPath ((bgpRun 3 ((bgpRun 3 [mkBGPRouter 10 "R1"]
        (BGPCall.recv "R1" "p" ⟨"p", [1], "h1", 100, 0⟩)).getD [])
        (BGPCall.recv "R1" "p" ⟨"p", [2, 3], "h2", 100, 0⟩)).getD []) "R1" "p" =
      some [10, 1] ∧
    bgpEntryPath ((bgpRun 3 ((bgpRun 3 [mkBGPRouter 10 "R1"]
        (BGPCall.recv "R1" "p" ⟨"p", [2, 3], "h2", 100, 0⟩)).getD [])
        (BGPCall.recv "R1" "p" ⟨"p", [1], "h1", 100, 0⟩)).getD []) "R1" "p" =
      some [10, 1] :=
  claim2_amended 3 3 3 3 [mkBGPRouter 10 "R1"]
    ((bgpRun 3 [mkBGPRouter 10 "R1"]
      (BGPCall.recv "R1" "p" ⟨"p", [1], "h1", 100, 0⟩)).getD [])
    ((bgpRun 3 ((bgpRun 3 [mkBGPRouter 10 "R1"]
      (BGPCall.recv "R1" "p" ⟨"p", [1], "h1", 100, 0⟩)).getD [])
      (BGPCall.recv "R1" "p" ⟨"p", [2, 3], "h2", 100, 0⟩)).getD [])
    ((bgpRun 3 [mkBGPRouter 10 "R1"]
      (BGPCall.recv "R1" "p" ⟨"p", [2, 3], "h2", 100, 0⟩)).getD [])
    ((bgpRun 3 ((bgpRun 3 [mkBGPRouter 10 "R1"]
      (BGPCall.recv "R1" "p" ⟨"p", [2, 3], "h2", 100, 0⟩)).getD [])
      (BGPCall.recv "R1" "p" ⟨"p", [1], "h1", 100, 0⟩)).getD [])
    "R1" "p"
    ⟨"p", [1], "h1", 100, 0⟩ ⟨"p", [2, 3], "h2", 100, 0⟩ (mkBGPRouter 10 "R1")
    rfl rfl (by decide) (by decide) (by decide)
    (by decide) (by decide) (by decide) (by decide)

/-- C3 counterexample: two distinct equal-length routes (paths [1] and
[2], router AS 10, prefix "p") delivered in sequence; the claim predicts
the second is rejected and the first-installed entry retained, but the
code replaces the entry (the stored path carries the prepended own AS and
is one element longer, so the equal-length newcomer wins the length
test). -/
theorem claim3_counterexample :
    ¬ (bgpEntryPath ((bgpRun 3 ((bgpRun 3 [mkBGPRouter 10 "R1"]
        (BGPCall.recv "R1" "p" ⟨"p", [1], "h1", 100, 0⟩)).getD [])
        (BGPCall.recv "R1" "p" ⟨"p", [2], "h2", 100, 0⟩)).getD []) "R1" "p" =
      bgpEntryPath ((bgpRun 3 [mkBGPRouter 10 "R1"]
        (BGPCall.recv "R1" "p" ⟨"p", [1], "h1", 100, 0⟩)).getD []) "R1" "p") := by
  decide

/-- C3 amended: two equal-length distinct-path routes for the same prefix
(neither containing the router's AS, no prior entry) delivered in
sequence — the second delivery is accepted and replaces the first: the
final entry is the second route's path with the own AS prepended, because
the stored first entry carries the prepended own AS and is one element
longer than the incoming equal-length path. -/
theorem claim3_amended (f1 f2 : Nat) (net netA netB : BGPNet)
    (rid pfx : String) (rt1 rt2 : BGPRoute) (r : BGPRouterState)
    (hf : findRouter net rid = some r)
    (hfresh : alGet r.routing_table pfx = none)
    (hm1 : r.as_number ∉ rt1.as_path)
    (hm2 : r.as_number ∉ rt2.as_path)
    (hlen : rt1.as_path.length = rt2.as_path.length)
    (hne : rt1.as_path ≠ rt2.as_path)
    (hA : bgpRun f1 net (BGPCall.recv rid pfx rt1) = some netA)
    (hB : bgpRun f2 netA (BGPCall.recv rid pfx rt2) = some netB) :
    bgpEntryPath netB rid pfx = some (r.as_number :: rt2.as_path) := by
  have hacc1 : acceptRoute r.routing_table pfx rt1 = true := by
    unfold acceptRoute
    rw [hfresh]
  have hfrA := bgpRun_recv_accept f1 net rid pfx rt1 r netA hf hm1 hacc1 hA
  have haccB : acceptRoute (alSet r.routing_table pfx
      ⟨pfx, r.as_number :: rt1.as_path, rt1.next_hop, 100, 0⟩) pfx rt2 = true := by
    unfold acceptRoute
    rw [alGet_alSet_self]
    simp only [decide_eq_true_eq]
    show rt2.as_path.length < (r.as_number :: rt1.as_path).length
    simp only [List.length_cons]
    omega
  have hfrB := bgpRun_recv_accept f2 netA rid pfx rt2 _ netB hfrA hm2 haccB hB
  unfold bgpEntryPath
  rw [hfrB]
  show (alGet (alSet (alSet r.routing_table pfx
    ⟨pfx, r.as_number :: rt1.as_path, rt1.next_hop, 100, 0⟩) pfx
    ⟨pfx, r.as_number :: rt2.as_path, rt2.next_hop, 100, 0⟩) pfx).map
    (·.as_path) = some (r.as_number :: rt2.as_path)
  rw [alSet_alSet, alGet_alSet_self]
  rfl

theorem claim3_witness :
    bgpEntryPath ((bgpRun 3 ((bgpRun 3 [mkBGPRouter 10 "R1"]
        (BGPCall.recv "R1" "p" ⟨"p", [1], "h1", 100, 0⟩)).getD [])
        (BGPCall.recv "R1" "p" ⟨"p", [2], "h2", 100, 0⟩)).getD []) "R1" "p" =
      some [10, 2] :=
  claim3_amended 3 3 [mkBGPRouter 10 "R1"]
    ((bgpRun 3 [mkBGPRouter 10 "R1"]
      (BGPCall.recv "R1" "p" ⟨"p", [1], "h1", 100, 0⟩)).getD [])
    ((bgpRun 3 ((bgpRun 3 [mkBGPRouter 10 "R1"]
      (BGPCall.recv "R1" "p" ⟨"p", [1], "h1", 100, 0⟩)).getD [])
      (BGPCall.recv "R1" "p" ⟨"p", [2], "h2", 100, 0⟩)).getD [])
    "R1" "p"
    ⟨"p", [1], "h1", 100, 0⟩ ⟨"p", [2], "h2", 100, 0⟩ (mkBGPRouter 10 "R1")
    rfl rfl (by decide) (by decide) rfl (by decide) (by decide) (by decide)

/-- C4 counterexample: a freshly created router with AS 10 that
originates a route for prefix "p" is a reachable state, and its own
routing-table entry has as_path [10] — containing its own AS number — so
the claimed invariant fails. -/
theorem claim4_counterexample :
    BGPReachable ((bgpRun 2 ([((10 : Int), "R1")].map (fun p => mkBGPRouter p.1 p.2))
      (BGPCall.adv "R1" "p" "h" none)).getD []) ∧
    ¬ bgpNoOwnAs ((bgpRun 2 ([((10 : Int), "R1")].map (fun p => mkBGPRouter p.1 p.2))
      (BGPCall.adv "R1" "p" "h" none)).getD []) := by
  constructor
  · exact BGPReachable.step 2 (BGPCall.adv "R1" "p" "h" none)
      (BGPReachable.init [(10, "R1")] (by decide)) (by decide)
  · decide

/-- C4 amended: the invariant the code actually maintains is the
opposite: in every reachable state, every stored route's as_path has the
owning router's AS number as its first element (the re-advertisement
overwrite prepends it), so every stored route contains the own AS. -/
theorem claim4_amended {net : BGPNet} (h : BGPReachable net) :
    bgpOwnAsHead net :=
  (bgpReachable_inv h).2

theorem claim4_witness :
    bgpOwnAsHead ((bgpRun 2 ([((10 : Int), "R1")].map (fun p => mkBGPRouter p.1 p.2))
      (BGPCall.adv "R1" "p" "h" none)).getD []) :=
  claim4_amended (BGPReachable.step 2 (BGPCall.adv "R1" "p" "h" none)
    (BGPReachable.init [(10, "R1")] (by decide)) (by decide))

/-- C9: in a finite peering graph with pairwise distinct AS numbers,
every externally triggered `advertise_route` call terminates: with fuel
`2·N + 2` (N the number of routers) the whole recursive cascade of
`receive_route` / `advertise_route` calls completes, because each
re-advertisement prepends one AS to the path and a route whose path
contains the receiver's AS is dropped, so the chain of accepting routers
is bounded by the number of routers. -/
theorem claim9_bgp_termination (fuel : Nat) (net : BGPNet)
    (rid pfx nh : String) (pathOpt : Option (List Int))
    (hdistinct : (net.map (·.as_number)).Nodup)
    (hfuel : 2 * net.length + 2 ≤ fuel) :
    (bgpRun fuel net (BGPCall.adv rid pfx nh pathOpt)).isSome := by
  have hneed : fuelNeed net (BGPCall.adv rid pfx nh pathOpt) ≤ fuel := by
    have hm : asOutside net (builtPath net rid pathOpt) ≤ net.length :=
      List.countP_le_length _
    simp only [fuelNeed]
    omega
  obtain ⟨net', h⟩ := bgpRun_isSome fuel net _ hneed
  rw [h]
  rfl

theorem claim9_witness :
    (bgpRun 8 [mkBGPRouter 1 "A", mkBGPRouter 2 "B", mkBGPRouter 3 "C"]
      (BGPCall.adv "A" "p" "h" none)).isSome :=
  claim9_bgp_termination 8 [mkBGPRouter 1 "A", mkBGPRouter 2 "B", mkBGPRouter 3 "C"]
    "A" "p" "h" none (by decide) (by decide)

/-- C5: delivering an LSA with the same identity (router_id and
sequence_number) to a router twice causes at most one install, one flood
and one SPF recomputation: once the first delivery has returned, the id
is in the router's seen set, and the second delivery returns with the
whole network — lsdb, routing table and seen set included — unchanged,
forwarding nothing to any neighbour. -/
theorem claim5_ospf_idempotent_flooding (fuel1 fuel2 : Nat) (net net1 : ONet)
    (rid : String) (lsa lsa' : LSA) (r : OSPFRouterState)
    (hf : findORouter net rid = some r)
    (hrid : lsa'.router_id = lsa.router_id)
    (hseq : lsa'.sequence_number = lsa.sequence_number)
    (hfuel : 0 < fuel2)
    (h1 : ospfRun fuel1 net (OCall.recvLsa rid lsa) = some net1) :
    ospfRun fuel2 net1 (OCall.recvLsa rid lsa') = some net1 := by
  have hid : lsaId lsa' = lsaId lsa := by
    unfold lsaId
    rw [hrid, hseq]
  have hseen1 : lsaId lsa ∈ seenOf net1 rid :=
    ospfRun_recv_seen_after fuel1 net rid lsa r net1 hf h1
  obtain ⟨r1, hfr1, hmem⟩ := seenOf_mem_find hseen1
  cases fuel2 with
  | zero => omega
  | succ f =>
    exact ospfRun_recv_seen f net1 rid lsa' r1 hfr1 (by rw [hid]; exact hmem)

theorem claim5_witness :
    ospfRun 5 ((ospfRun 5 [mkOSPFRouter "R1"]
        (OCall.recvLsa "R1" ⟨"S", 1, 0, [("R1", 1)], "0"⟩)).getD [])
      (OCall.recvLsa "R1" ⟨"S", 1, 0, [("R1", 1)], "0"⟩) =
    some ((ospfRun 5 [mkOSPFRouter "R1"]
        (OCall.recvLsa "R1" ⟨"S", 1, 0, [("R1", 1)], "0"⟩)).getD []) :=
  claim5_ospf_idempotent_flooding 5 5 [mkOSPFRouter "R1"]
    ((ospfRun 5 [mkOSPFRouter "R1"]
      (OCall.recvLsa "R1" ⟨"S", 1, 0, [("R1", 1)], "0"⟩)).getD [])
    "R1" ⟨"S", 1, 0, [("R1", 1)], "0"⟩ ⟨"S", 1, 0, [("R1", 1)], "0"⟩
    (mkOSPFRouter "R1") rfl rfl rfl (by omega) (by with_unfolding_all rfl)

/-- C6: for two LSAs from the same originator with sequence numbers
s1 < s2 (ids unseen, no stored entry for the originator), delivering both
in either order leaves the lsdb holding the LSA with sequence number s2;
and in general an LSA whose id is unseen is installed over the stored
entry iff its sequence number is strictly greater, or equal with strictly
smaller age (absent entry counts as oldest possible). -/
theorem claim6_ospf_newer_wins (f1 f2 f3 f4 : Nat)
    (net netA netB netC netD : ONet) (rid : String) (lsa1 lsa2 : LSA)
    (r : OSPFRouterState)
    (hf : findORouter net rid = some r)
    (horig : lsa2.router_id = lsa1.router_id)
    (hlt : lsa1.sequence_number < lsa2.sequence_number)
    (hid : lsaId lsa1 ≠ lsaId lsa2)
    (hun1 : lsaId lsa1 ∉ r.lsa_seen)
    (hun2 : lsaId lsa2 ∉ r.lsa_seen)
    (hfresh : alGet r.lsdb lsa1.router_id = none)
    (hA : ospfRun f1 net (OCall.recvLsa rid lsa1) = some netA)
    (hB : ospfRun f2 netA (OCall.recvLsa rid lsa2) = some netB)
    (hC : ospfRun f3 net (OCall.recvLsa rid lsa2) = some netC)
    (hD : ospfRun f4 netC (OCall.recvLsa rid lsa1) = some netD) :
    (lsdbEntry netB rid lsa1.router_id = some lsa2 ∧
     lsdbEntry netD rid lsa1.router_id = some lsa2) ∧
    (∀ (net0 net0' : ONet) (rid0 : String) (l : LSA) (r0 : OSPFRouterState)
      (f0 : Nat),
      findORouter net0 rid0 = some r0 →
      lsaId l ∉ r0.lsa_seen →
      ospfRun f0 net0 (OCall.recvLsa rid0 l) = some net0' →
      lsdbEntry net0' rid0 l.router_id =
        if lsaNewer l (alGet r0.lsdb l.router_id) = true then some l
        else alGet r0.lsdb l.router_id) := by
  constructor
  · constructor
    · -- order lsa1 then lsa2
      have hnew1 : lsaNewer lsa1 (alGet r.lsdb lsa1.router_id) = true := by
        rw [hfresh]
        rfl
      obtain ⟨tblA, _, hfrA⟩ :=
        ospfRun_recv_install f1 net rid lsa1 r netA hf hun1 hnew1 hA
      have hunA : lsaId lsa2 ∉
          (lsaId lsa1 :: r.lsa_seen : List String) := by
        intro hmem
        rcases List.mem_cons.mp hmem with h' | h'
        · exact hid h'.symm
        · exact hun2 h'
      have hgetA : alGet (alSet r.lsdb lsa1.router_id lsa1) lsa2.router_id =
          some lsa1 := by
        rw [horig]
        exact alGet_alSet_self _ _ _
      have hnew2 : lsaNewer lsa2
          (alGet (alSet r.lsdb lsa1.router_id lsa1) lsa2.router_id) = true := by
        rw [hgetA]
        simp only [lsaNewer, decide_eq_true_eq]
        exact Or.inl hlt
      obtain ⟨tblB, _, hfrB⟩ :=
        ospfRun_recv_install f2 netA rid lsa2 _ netB hfrA hunA hnew2 hB
      unfold lsdbEntry
      rw [hfrB]
      show alGet (alSet (alSet r.lsdb lsa1.router_id lsa1) lsa2.router_id lsa2)
        lsa1.router_id = some lsa2
      rw [horig, alSet_alSet]
      exact alGet_alSet_self _ _ _
    · -- order lsa2 then lsa1
      have hnew2' : lsaNewer lsa2 (alGet r.lsdb lsa2.router_id) = true := by
        rw [horig, hfresh]
        rfl
      obtain ⟨tblC, _, hfrC⟩ :=
        ospfRun_recv_install f3 net rid lsa2 r netC hf hun2 hnew2' hC
      have hunC : lsaId lsa1 ∉
          (lsaId lsa2 :: r.lsa_seen : List String) := by
        intro hmem
        rcases List.mem_cons.mp hmem with h' | h'
        · exact hid h'
        · exact hun1 h'
      have hgetC : alGet (alSet r.lsdb lsa2.router_id lsa2) lsa1.router_id =
          some lsa2 := by
        rw [horig]
        exact alGet_alSet_self _ _ _
      have hstale : lsaNewer lsa1
          (alGet (alSet r.lsdb lsa2.router_id lsa2) lsa1.router_id) = false := by
        rw [hgetC]
        simp only [lsaNewer, decide_eq_false_iff_not]
        intro hcon
        rcases hcon with hcon | ⟨hcon, _⟩ <;> omega
      cases f4 with
      | zero => simp [ospfRun] at hD
      | succ f =>
        rw [ospfRun_recv_stale f netC rid lsa1 _ hfrC hunC hstale] at hD
        cases hD
        unfold lsdbEntry
        rw [findORouter_updO_self _ _
          (fun x => { x with lsa_seen := lsaId lsa1 :: x.lsa_seen })
          (fun x => rfl), hfrC]
        exact hgetC
  · intro net0 net0' rid0 l r0 f0 hf0 hun0 h0
    by_cases hnew : lsaNewer l (alGet r0.lsdb l.router_id) = true
    · obtain ⟨tbl, _, hfr⟩ :=
        ospfRun_recv_install f0 net0 rid0 l r0 net0' hf0 hun0 hnew h0
      rw [if_pos hnew]
      unfold lsdbEntry
      rw [hfr]
      exact alGet_alSet_self _ _ _
    · rw [if_neg hnew]
      cases f0 with
      | zero => simp [ospfRun] at h0
      | succ f =>
        rw [ospfRun_recv_stale f net0 rid0 l r0 hf0 hun0
          (by simpa using hnew)] at h0
        cases h0
        unfold lsdbEntry
        rw [findORouter_updO_self _ _
          (fun x => { x with lsa_seen := lsaId l :: x.lsa_seen })
          (fun x => rfl), hf0]
        rfl

theorem claim6_witness :
    (lsdbEntry ((ospfRun 5 ((ospfRun 5 [mkOSPFRouter "R1"]
        (OCall.recvLsa "R1" ⟨"S", 1, 0, [("R1", 1)], "0"⟩)).getD [])
        (OCall.recvLsa "R1" ⟨"S", 2, 0, [("R1", 2)], "0"⟩)).getD []) "R1" "S" =
        some ⟨"S", 2, 0, [("R1", 2)], "0"⟩ ∧
     lsdbEntry ((ospfRun 5 ((ospfRun 5 [mkOSPFRouter "R1"]
        (OCall.recvLsa "R1" ⟨"S", 2, 0, [("R1", 2)], "0"⟩)).getD [])
        (OCall.recvLsa "R1" ⟨"S", 1, 0, [("R1", 1)], "0"⟩)).getD []) "R1" "S" =
        some ⟨"S", 2, 0, [("R1", 2)], "0"⟩) ∧
    (∀ (net0 net0' : ONet) (rid0 : String) (l : LSA) (r0 : OSPFRouterState)
      (f0 : Nat),
      findORouter net0 rid0 = some r0 →
      lsaId l ∉ r0.lsa_seen →
      ospfRun f0 net0 (OCall.recvLsa rid0 l) = some net0' →
      lsdbEntry net0' rid0 l.router_id =
        if lsaNewer l (alGet r0.lsdb l.router_id) = true then some l
        else alGet r0.lsdb l.router_id) :=
  claim6_ospf_newer_wins 5 5 5 5 [mkOSPFRouter "R1"]
    ((ospfRun 5 [mkOSPFRouter "R1"]
      (OCall.recvLsa "R1" ⟨"S", 1, 0, [("R1", 1)], "0"⟩)).getD [])
    ((ospfRun 5 ((ospfRun 5 [mkOSPFRouter "R1"]
      (OCall.recvLsa "R1" ⟨"S", 1, 0, [("R1", 1)], "0"⟩)).getD [])
      (OCall.recvLsa "R1" ⟨"S", 2, 0, [("R1", 2)], "0"⟩)).getD [])
    ((ospfRun 5 [mkOSPFRouter "R1"]
      (OCall.recvLsa "R1" ⟨"S", 2, 0, [("R1", 2)], "0"⟩)).getD [])
    ((ospfRun 5 ((ospfRun 5 [mkOSPFRouter "R1"]
      (OCall.recvLsa "R1" ⟨"S", 2, 0, [("R1", 2)], "0"⟩)).getD [])
      (OCall.recvLsa "R1" ⟨"S", 1, 0, [("R1", 1)], "0"⟩)).getD [])
    "R1" ⟨"S", 1, 0, [("R1", 1)], "0"⟩ ⟨"S", 2, 0, [("R1", 2)], "0"⟩
    (mkOSPFRouter "R1") rfl rfl (by decide) (by decide) (by decide) (by decide)
    rfl (by with_unfolding_all rfl) (by with_unfolding_all rfl)
    (by with_unfolding_all rfl) (by with_unfolding_all rfl)

/-- C7 counterexample: `add_neighbor` regenerates the router's own LSA
(updating the lsdb) but does not recompute the routing table, so after a
single `add_neighbor` call the table (still empty) is not the SPF output
over the current lsdb (which contains the new link): the claimed
invariant fails at this reachable state. -/
theorem claim7_counterexample :
    OReachable (addNeighborOp (["R1"].map (fun rid => mkOSPFRouter rid))
      "R1" "R2" 1 false) ∧
    ¬ spfInv (addNeighborOp (["R1"].map (fun rid => mkOSPFRouter rid))
      "R1" "R2" 1 false) := by
  constructor
  · exact OReachable.addNeighbor "R1" "R2" 1 false
      (OReachable.init ["R1"] (by decide))
  · with_unfolding_all decide

/-- C7 amended: the invariant holds after every installing `receive_lsa`
call — the routing table is then the exact output of a full shortest-path
computation over the router's current lsdb, fully replaced, never partial
— but `_generate_lsa` (and hence `add_neighbor`) updates the lsdb without
recomputing, so the equality can fail in reachable states until the next
install. -/
theorem claim7_amended (fuel : Nat) (net net' : ONet) (rid : String)
    (lsa : LSA) (r r' : OSPFRouterState)
    (hf : findORouter net rid = some r)
    (hunseen : lsaId lsa ∉ r.lsa_seen)
    (hnew : lsaNewer lsa (alGet r.lsdb lsa.router_id) = true)
    (hrun : ospfRun fuel net (OCall.recvLsa rid lsa) = some net')
    (hf' : findORouter net' rid = some r') :
    runSpf r'.lsdb r'.router_id = some r'.routing_table := by
  obtain ⟨tbl, hspf, hfr⟩ :=
    ospfRun_recv_install fuel net rid lsa r net' hf hunseen hnew hrun
  rw [hfr] at hf'
  have hr' : r' =
      { r with
          lsa_seen := lsaId lsa :: r.lsa_seen,
          lsdb := alSet r.lsdb lsa.router_id lsa,
          routing_table := tbl } :=
    (Option.some.inj hf').symm
  subst hr'
  have hrid : r.router_id = rid := findORouter_id hf
  show runSpf (alSet r.lsdb lsa.router_id lsa) r.router_id = some tbl
  rw [hrid]
  exact hspf

theorem claim7_witness :
    runSpf ((findORouter ((ospfRun 5 [mkOSPFRouter "R1"]
        (OCall.recvLsa "R1" ⟨"S", 1, 0, [("R1", 1)], "0"⟩)).getD [])
        "R1").getD (mkOSPFRouter "R1")).lsdb
      ((findORouter ((ospfRun 5 [mkOSPFRouter "R1"]
        (OCall.recvLsa "R1" ⟨"S", 1, 0, [("R1", 1)], "0"⟩)).getD [])
        "R1").getD (mkOSPFRouter "R1")).router_id =
    some ((findORouter ((ospfRun 5 [mkOSPFRouter "R1"]
        (OCall.recvLsa "R1" ⟨"S", 1, 0, [("R1", 1)], "0"⟩)).getD [])
        "R1").getD (mkOSPFRouter "R1")).routing_table :=
  claim7_amended 5 [mkOSPFRouter "R1"]
    ((ospfRun 5 [mkOSPFRouter "R1"]
      (OCall.recvLsa "R1" ⟨"S", 1, 0, [("R1", 1)], "0"⟩)).getD [])
    "R1" ⟨"S", 1, 0, [("R1", 1)], "0"⟩ (mkOSPFRouter "R1")
    ((findORouter ((ospfRun 5 [mkOSPFRouter "R1"]
      (OCall.recvLsa "R1" ⟨"S", 1, 0, [("R1", 1)], "0"⟩)).getD [])
      "R1").getD (mkOSPFRouter "R1"))
    rfl (by decide) rfl (by with_unfolding_all rfl) (by with_unfolding_all rfl)

/-- C8: three OSPF routers wired in a chain R1–R2 with cost 1 and R2–R3
with cost 2 through the `connect_routers` neighbour-connection sequence
(mutual `add_neighbor`, full LSDB exchange, then generate and flood fresh
LSAs on both sides); afterwards `R1.get_route("R3")` returns
`("R2", 3.0)`. -/
theorem claim8_end_to_end_chain :
    ((connectOspf 30 [mkOSPFRouter "R1", mkOSPFRouter "R2", mkOSPFRouter "R3"]
        "R1" "R2" 1).bind
      (fun n => connectOspf 30 n "R2" "R3" 2)).bind
      (fun n => getRoute n "R1" "R3") = some ("R2", 3) := by
  with_unfolding_all rfl
